import Mathlib

/-!
Verification of the polling-and-reconciliation core of kitty-smart-tabs.

The Python sources under src/smart_tabs/ are shallowly embedded:
pure helpers become Lean functions, the filesystem and the external
control interface become explicit parameters (association lists and
oracle functions), and exceptions become Option/Except-style results.
-/

namespace SmartTabs

/-! ## Association lists (model of Python dicts keyed by insertion order) -/

/-- Lookup in an association list (first matching key wins). -/
def alLookup {α β : Type} [DecidableEq α] (k : α) : List (α × β) → Option β
  | [] => none
  | (k', v) :: rest => if k' = k then some v else alLookup k rest

/-- Insert into an association list with Python-dict semantics: an existing
key keeps its position and gets the new value, a new key is appended. -/
def alInsert {α β : Type} [DecidableEq α] (k : α) (v : β) : List (α × β) → List (α × β)
  | [] => [(k, v)]
  | (k', v') :: rest => if k' = k then (k, v) :: rest else (k', v') :: alInsert k v rest

/-- Remove every binding of a key from an association list. -/
def alErase {α β : Type} [DecidableEq α] (k : α) : List (α × β) → List (α × β)
  | [] => []
  | (k', v') :: rest => if k' = k then alErase k rest else (k', v') :: alErase k rest

/-- The keys of an association list. -/
def alKeys {α β : Type} (l : List (α × β)) : List α := l.map Prod.fst

theorem alLookup_insert_self {α β : Type} [DecidableEq α] (k : α) (v : β)
    (l : List (α × β)) : alLookup k (alInsert k v l) = some v := by
  induction l with
  | nil => simp [alInsert, alLookup]
  | cons hd tl ih =>
    obtain ⟨k', v'⟩ := hd
    by_cases h : k' = k <;> simp [alInsert, alLookup, h, ih]

theorem alLookup_insert_ne {α β : Type} [DecidableEq α] {k k' : α} (v : β)
    (l : List (α × β)) (h : k' ≠ k) :
    alLookup k (alInsert k' v l) = alLookup k l := by
  induction l with
  | nil => simp [alInsert, alLookup, h]
  | cons hd tl ih =>
    obtain ⟨k'', v''⟩ := hd
    by_cases h2 : k'' = k'
    · subst h2
      simp [alInsert, alLookup, h, Ne.symm h]
    · by_cases h3 : k'' = k <;> simp [alInsert, alLookup, h2, h3, Ne.symm h, ih]

theorem alLookup_erase_ne {α β : Type} [DecidableEq α] {k k' : α}
    (l : List (α × β)) (h : k' ≠ k) :
    alLookup k (alErase k' l) = alLookup k l := by
  induction l with
  | nil => simp [alErase, alLookup]
  | cons hd tl ih =>
    obtain ⟨k'', v''⟩ := hd
    by_cases h2 : k'' = k'
    · subst h2
      simp [alErase, alLookup, h, Ne.symm h, ih]
    · by_cases h3 : k'' = k <;> simp [alErase, alLookup, h2, h3, Ne.symm h, ih]

theorem mem_alKeys_insert {α β : Type} [DecidableEq α] {a k : α} (v : β)
    (l : List (α × β)) :
    a ∈ alKeys (alInsert k v l) ↔ a = k ∨ a ∈ alKeys l := by
  induction l with
  | nil => simp [alInsert, alKeys]
  | cons hd tl ih =>
    obtain ⟨k', v'⟩ := hd
    by_cases h2 : k' = k
    · subst h2
      simp only [alInsert, if_true, eq_self_iff_true, alKeys, List.map_cons, List.mem_cons]
      tauto
    · simp only [alInsert, h2, if_false, alKeys, List.map_cons, List.mem_cons]
      rw [show (a ∈ List.map Prod.fst (alInsert k v tl)) = (a ∈ alKeys (alInsert k v tl))
        from rfl, ih]
      tauto

theorem alKeys_insert_nodup {α β : Type} [DecidableEq α] (k : α) (v : β)
    (l : List (α × β)) (h : (alKeys l).Nodup) :
    (alKeys (alInsert k v l)).Nodup := by
  induction l with
  | nil => simp [alInsert, alKeys]
  | cons hd tl ih =>
    obtain ⟨k', v'⟩ := hd
    simp only [alKeys, List.map_cons, List.nodup_cons] at h
    by_cases h2 : k' = k
    · subst h2
      simpa [alInsert, alKeys, List.nodup_cons] using h
    · simp only [alInsert, h2, if_false, alKeys, List.map_cons, List.nodup_cons]
      refine ⟨?_, ih h.2⟩
      intro hmem
      rcases (mem_alKeys_insert v tl).1 (by simpa [alKeys] using hmem) with h3 | h3
      · exact h2 h3
      · exact h.1 (by simpa [alKeys] using h3)

theorem alLookup_eq_some_of_mem_nodup {α β : Type} [DecidableEq α]
    {k : α} {v : β} {l : List (α × β)} (hmem : (k, v) ∈ l)
    (hnd : (alKeys l).Nodup) : alLookup k l = some v := by
  induction l with
  | nil => simp at hmem
  | cons hd tl ih =>
    obtain ⟨k', v'⟩ := hd
    simp only [alKeys, List.map_cons, List.nodup_cons] at hnd
    rcases List.mem_cons.1 hmem with h | h
    · obtain ⟨rfl, rfl⟩ := Prod.mk.injEq .. ▸ h
      simp_all [alLookup]
    · have hne : k' ≠ k := by
        rintro rfl
        exact hnd.1 (by simpa [alKeys] using List.mem_map_of_mem Prod.fst h)
      simp [alLookup, hne, ih h hnd.2]

theorem mem_value_unique_of_nodup {α β : Type} [DecidableEq α]
    {k : α} {v w : β} {l : List (α × β)} (hv : (k, v) ∈ l) (hw : (k, w) ∈ l)
    (hnd : (alKeys l).Nodup) : v = w := by
  have h1 := alLookup_eq_some_of_mem_nodup hv hnd
  have h2 := alLookup_eq_some_of_mem_nodup hw hnd
  rw [h1] at h2
  exact (Option.some.injEq .. ▸ h2)

/-! ## MD5 (used by colors.py via hashlib.md5)

A direct embedding of the MD5 algorithm over byte lists, so that
`get_color_for_path` can be translated faithfully.  All 32-bit machine
arithmetic is `Nat` with explicit reduction modulo `2 ^ 32`. -/

/-- Reduce modulo 2^32 (32-bit machine word). -/
def u32 (x : Nat) : Nat := x % 4294967296

/-- 32-bit left rotation. -/
def rotl32 (x c : Nat) : Nat := ((x <<< c) ||| (x >>> (32 - c))) % 4294967296

/-- 32-bit complement of a value below 2^32. -/
def not32 (x : Nat) : Nat := x ^^^ 4294967295

/-- The MD5 per-round shift amounts. -/
def md5S : List Nat :=
  [7, 12, 17, 22, 7, 12, 17, 22, 7, 12, 17, 22, 7, 12, 17, 22,
   5, 9, 14, 20, 5, 9, 14, 20, 5, 9, 14, 20, 5, 9, 14, 20,
   4, 11, 16, 23, 4, 11, 16, 23, 4, 11, 16, 23, 4, 11, 16, 23,
   6, 10, 15, 21, 6, 10, 15, 21, 6, 10, 15, 21, 6, 10, 15, 21]

/-- The MD5 sine-derived round constants. -/
def md5K : List Nat :=
  [0xd76aa478, 0xe8c7b756, 0x242070db, 0xc1bdceee,
   0xf57c0faf, 0x4787c62a, 0xa8304613, 0xfd469501,
   0x698098d8, 0x8b44f7af, 0xffff5bb1, 0x895cd7be,
   0x6b901122, 0xfd987193, 0xa679438e, 0x49b40821,
   0xf61e2562, 0xc040b340, 0x265e5a51, 0xe9b6c7aa,
   0xd62f105d, 0x02441453, 0xd8a1e681, 0xe7d3fbc8,
   0x21e1cde6, 0xc33707d6, 0xf4d50d87, 0x455a14ed,
   0xa9e3e905, 0xfcefa3f8, 0x676f02d9, 0x8d2a4c8a,
   0xfffa3942, 0x8771f681, 0x6d9d6122, 0xfde5380c,
   0xa4beea44, 0x4bdecfa9, 0xf6bb4b60, 0xbebfbc70,
   0x289b7ec6, 0xeaa127fa, 0xd4ef3085, 0x04881d05,
   0xd9d4d039, 0xe6db99e5, 0x1fa27cf8, 0xc4ac5665,
   0xf4292244, 0x432aff97, 0xab9423a7, 0xfc93a039,
   0x655b59c3, 0x8f0ccc92, 0xffeff47d, 0x85845dd1,
   0x6fa87e4f, 0xfe2ce6e0, 0xa3014314, 0x4e0811a1,
   0xf7537e82, 0xbd3af235, 0x2ad7d2bb, 0xeb86d391]

/-- Little-endian bytes of a 32-bit word. -/
def le32 (x : Nat) : List Nat :=
  [x % 256, x / 256 % 256, x / 65536 % 256, x / 16777216 % 256]

/-- Little-endian bytes of a 64-bit word. -/
def le64 (x : Nat) : List Nat := le32 (x % 4294967296) ++ le32 (x / 4294967296 % 4294967296)

/-- MD5 padding: append 0x80, zero-pad to 56 mod 64, append the bit length. -/
def md5pad (msg : List Nat) : List Nat :=
  let zeros := (120 - ((msg.length + 1) % 64)) % 64
  msg ++ [0x80] ++ List.replicate zeros 0 ++ le64 (8 * msg.length)

/-- Split a byte list into 64-byte chunks (structural recursion on a fuel
bound by the list length, so that the kernel can evaluate it). -/
def chunks64Go : Nat → List Nat → List (List Nat)
  | _, [] => []
  | 0, _ => []
  | fuel + 1, a :: rest => ((a :: rest).take 64) :: chunks64Go fuel ((a :: rest).drop 64)

/-- Split a byte list into 64-byte chunks. -/
def chunks64 (l : List Nat) : List (List Nat) := chunks64Go l.length l

/-- The g-th little-endian 32-bit word of a 64-byte chunk. -/
def md5Word (chunk : List Nat) (g : Nat) : Nat :=
  chunk.getD (4 * g) 0 + 256 * chunk.getD (4 * g + 1) 0 +
    65536 * chunk.getD (4 * g + 2) 0 + 16777216 * chunk.getD (4 * g + 3) 0

/-- One MD5 round (index i from 0 to 63) on the state (A, B, C, D). -/
def md5Round (chunk : List Nat) (st : Nat × Nat × Nat × Nat) (i : Nat) :
    Nat × Nat × Nat × Nat :=
  let (a, b, c, d) := st
  let fg : Nat × Nat :=
    if i < 16 then ((b &&& c) ||| (not32 b &&& d), i)
    else if i < 32 then ((d &&& b) ||| (not32 d &&& c), (5 * i + 1) % 16)
    else if i < 48 then (b ^^^ c ^^^ d, (3 * i + 5) % 16)
    else (c ^^^ (b ||| not32 d), 7 * i % 16)
  let fv := u32 (fg.1 + a + md5K.getD i 0 + md5Word chunk fg.2)
  (d, u32 (b + rotl32 fv (md5S.getD i 0)), b, c)

/-- Process one 64-byte chunk, updating the running MD5 state. -/
def md5Chunk (st : Nat × Nat × Nat × Nat) (chunk : List Nat) : Nat × Nat × Nat × Nat :=
  let (a0, b0, c0, d0) := st
  let (a, b, c, d) := (List.range 64).foldl (md5Round chunk) st
  (u32 (a0 + a), u32 (b0 + b), u32 (c0 + c), u32 (d0 + d))

/-- The 16 digest bytes of the MD5 of a byte list. -/
def md5Digest (msg : List Nat) : List Nat :=
  let r := (chunks64 (md5pad msg)).foldl md5Chunk
    (0x67452301, 0xefcdab89, 0x98badcfe, 0x10325476)
  le32 r.1 ++ le32 r.2.1 ++ le32 r.2.2.1 ++ le32 r.2.2.2

/-- Standard UTF-8 encoding of a character sequence, as `Nat` bytes. -/
def utf8Bytes : List Char → List Nat
  | [] => []
  | c :: cs =>
    let n := c.toNat
    (if n < 0x80 then [n]
     else if n < 0x800 then [0xC0 + n / 64, 0x80 + n % 64]
     else if n < 0x10000 then [0xE0 + n / 4096, 0x80 + n / 64 % 64, 0x80 + n % 64]
     else [0xF0 + n / 262144, 0x80 + n / 4096 % 64, 0x80 + n / 64 % 64, 0x80 + n % 64])
    ++ utf8Bytes cs

/-- UTF-8 bytes of a string, as `Nat`s (Python `path.encode()`). -/
def strBytes (s : String) : List Nat := utf8Bytes s.data

/-- `int(hashlib.md5(path.encode()).hexdigest(), 16)`: the digest bytes read
as one big-endian number. -/
def md5Int (path : String) : Nat :=
  (md5Digest (strBytes path)).foldl (fun acc b => 256 * acc + b) 0

/-! ## colors.py -/

/-- The built-in six-color palette of `get_color_for_path`. -/
def fallbackPalette : List String :=
  ["#2b8eff", "#a9dc76", "#ab9df2", "#ffd866", "#78dce8", "#f48771"]

/-- Translation of `get_color_for_path` (src/smart_tabs/colors.py): index the
palette by the MD5 hash of the path modulo the palette size.  A `None` palette
argument in Python selects the built-in list; that default is the Lean default
argument.  (Python raises on an empty palette: the modulus is zero; the model
is only exercised on non-empty palettes, where `getD` never uses its default.) -/
def get_color_for_path (path : String) (color_palette : List String := fallbackPalette) :
    String :=
  color_palette.getD (md5Int path % color_palette.length) ""

/-! ## config.py

Only the resolved option values matter to the core, so `Config` is the
record of values the core reads, and `defaultConfig` carries the values of
`DEFAULT_CONFIG` (the state of a `Config()` with no user file). -/

structure Config where
  palette : List String
  show_commands : Bool
  show_tab_index : Bool
  poll_interval : Int
  max_dir_length : Nat
  max_cmd_length : Nat
  ignored_shells : List String
  ignored_commands : List String
  ignored_prefixes : List String
  ignored_suffixes : List String
  priority_commands : List String

/-- The values of `DEFAULT_CONFIG` in src/smart_tabs/config.py. -/
def defaultConfig : Config where
  palette :=
    ["#2b8eff", "#a9dc76", "#ab9df2", "#ffd866", "#78dce8", "#f48771", "#ff6188",
     "#fc9867", "#79dac8", "#5ad4e6", "#9ecd6f", "#e0af68", "#bb9af7", "#7dcfff",
     "#ff9e64", "#7aa2f7"]
  show_commands := true
  show_tab_index := true
  poll_interval := 2
  max_dir_length := 30
  max_cmd_length := 30
  ignored_shells := ["zsh", "bash", "sh", "fish", "ksh", "tcsh", "csh"]
  ignored_commands := ["npm", "yarn", "sleep", "cat", "grep", "sed", "awk", "pip", "gem"]
  ignored_prefixes := ["mcp_server_", "helper-", "worker-", "node_modules", "ts-node"]
  ignored_suffixes := ["-helper", "-worker", "-daemon", "-service", "-server"]
  priority_commands :=
    ["nvim", "vim", "vi", "emacs", "code", "nano", "claude", "git", "docker", "kubectl"]

/-! ## tempfiles.py

The storage root is modelled as an association list from file name (within
the temp directory) to file metadata and content.  `stat.st_uid` and the
permission bits become the `uid` and `mode` fields; text content is the
`content` field. -/

structure FsFile where
  uid : Nat
  mode : Nat
  content : String
deriving DecidableEq, Repr

/-- The storage root: file name ↦ file. -/
def Fs : Type := List (String × FsFile)

/-! ### Character-level string operations

Python string operations act on code points.  The embedding therefore
works on `String.data` (the character list) throughout: these `ch*`
helpers are the code-point versions of the Python operations used by the
sources, and they evaluate inside the kernel. -/

/-- Python `s.startswith(pre)`. -/
def chStartsWith (s pre : String) : Bool := pre.data.isPrefixOf s.data

/-- Python `s.endswith(suf)`. -/
def chEndsWith (s suf : String) : Bool := suf.data.reverse.isPrefixOf s.data.reverse

/-- Python `s[n:]`. -/
def chDrop (s : String) (n : Nat) : String := String.mk (s.data.drop n)

/-- Python `s[:n]`. -/
def chTake (s : String) (n : Nat) : String := String.mk (s.data.take n)

/-- Python `s[:-n]` (for `0 < n ≤ len(s)`): drop the last `n` characters. -/
def chDropRight (s : String) (n : Nat) : String :=
  String.mk (s.data.take (s.data.length - n))

/-- Python `len(s)` (code points). -/
def chLength (s : String) : Nat := s.data.length

/-- Python falsiness of a string (`not s`). -/
def chIsEmpty (s : String) : Bool := s.data.isEmpty

/-- Python `s.strip()` (ASCII whitespace model). -/
def chTrim (s : String) : String :=
  String.mk (((s.data.dropWhile Char.isWhitespace).reverse.dropWhile
    Char.isWhitespace).reverse)

/-- ASCII lowercase of one character (Python `str.lower` on the ASCII range;
the sources only compare ASCII command and option names). -/
def lowerChar (c : Char) : Char :=
  if 65 ≤ c.toNat ∧ c.toNat ≤ 90 then Char.ofNat (c.toNat + 32) else c

/-- Python `s.lower()` (ASCII model). -/
def chToLower (s : String) : String := String.mk (s.data.map lowerChar)

/-- Python `c in s` for a single character. -/
def chContains (s : String) (c : Char) : Bool := s.data.any (fun x => x = c)

/-- Python `s.split(sep)` for a one-character separator. -/
def splitOnChar (c : Char) : List Char → List (List Char)
  | [] => [[]]
  | x :: xs =>
    let r := splitOnChar c xs
    if x = c then [] :: r
    else
      match r with
      | h :: t => (x :: h) :: t
      | [] => [[x]]

/-- Python `s.rstrip(c)` for one character. -/
def chDropRightWhile (s : String) (c : Char) : String :=
  String.mk ((s.data.reverse.dropWhile (fun x => x = c)).reverse)

/-- Whether `pat` occurs as a contiguous run inside a character list. -/
def charsHaveInfix (pat : List Char) : List Char → Bool
  | [] => pat.isEmpty
  | c :: cs => pat.isPrefixOf (c :: cs) || charsHaveInfix pat cs

/-- Python `pat in s` (substring containment). -/
def hasSubstr (pat s : String) : Bool := charsHaveInfix pat.data s.data

/-- The per-tab record name `tab_{tab_id}_cwd` (from `get_cwd_file_path`). -/
def cwdFileName (tab_id : Int) : String := "tab_" ++ toString tab_id ++ "_cwd"

/-- Translation of `read_cwd_safe` (src/smart_tabs/tempfiles.py).  `uid` is
`os.getuid()` for the current process.  Every exception path of the Python
function returns `None`; the model returns `none` in the same cases. -/
def read_cwd_safe (uid : Nat) (fs : Fs) (tab_id : Int) : Option String :=
  if tab_id ≤ 0 then none
  else
    match alLookup (cwdFileName tab_id) fs with
    | none => none
    | some f =>
      if f.uid ≠ uid then none
      else if f.mode &&& 63 ≠ 0 then none
      else
        let cwd := chTrim f.content
        if cwd = "" then none
        else if ¬ chStartsWith cwd "/" then none
        else if chLength cwd > 4096 then none
        else some cwd

/-- Environment for `write_cwd_atomic`: whether each operating-system step
succeeds, and the unique random part that `tempfile.mkstemp` picks. -/
structure WriteEnv where
  mkstempOk : Bool
  writeOk : Bool
  chmodOk : Bool
  renameOk : Bool
  tempRand : String

/-- The temporary file name `tab_{tab_id}_{rand}.tmp` chosen by `mkstemp`. -/
def tempFileName (tab_id : Int) (rand : String) : String :=
  "tab_" ++ toString tab_id ++ "_" ++ rand ++ ".tmp"

/-- Translation of `write_cwd_atomic` (src/smart_tabs/tempfiles.py).  The
result is the raised error (if any) together with the final filesystem; a
failure after `mkstemp` unlinks the temp file and re-raises. -/
def write_cwd_atomic (uid : Nat) (env : WriteEnv) (fs : Fs) (tab_id : Int)
    (cwd : String) : Option String × Fs :=
  if tab_id ≤ 0 then (some ("Invalid tab_id: " ++ toString tab_id), fs)
  else if cwd = "" then (some "CWD must be non-empty string", fs)
  else if ¬ chStartsWith cwd "/" then (some ("CWD must be absolute path: " ++ cwd), fs)
  else if hasSubstr "/.." cwd || chStartsWith cwd ".." then
    (some ("Path traversal not allowed: " ++ cwd), fs)
  else if chLength cwd > 4096 then (some "CWD path too long", fs)
  else if ¬ env.mkstempOk then (some "mkstemp failed", fs)
  else
    let temp := tempFileName tab_id env.tempRand
    let fs1 := alInsert temp ⟨uid, 384, ""⟩ fs
    if ¬ env.writeOk then (some "write failed", alErase temp fs1)
    else
      let fs2 := alInsert temp ⟨uid, 384, cwd⟩ fs1
      if ¬ env.chmodOk then (some "chmod failed", alErase temp fs2)
      else if ¬ env.renameOk then (some "rename failed", alErase temp fs2)
      else (none, alInsert (cwdFileName tab_id) ⟨uid, 384, cwd⟩ (alErase temp fs2))

/-- The glob pattern `tab_*_cwd` of `cleanup_temp_files`, on a single file
name: the name decomposes as `tab_` ++ mid ++ `_cwd`. -/
def matchesTabCwd (name : String) : Bool :=
  chStartsWith name "tab_" && chEndsWith (chDrop name 4) "_cwd"

/-- Translation of `cleanup_temp_files` (src/smart_tabs/tempfiles.py):
delete every file matching `tab_*_cwd` in the storage root; an unlink
failure is logged and skipped, a failure to reach the directory leaves
everything unchanged, and nothing is ever raised. -/
def cleanup_temp_files (dirOk : Bool) (unlinkFails : String → Bool) (fs : Fs) : Fs :=
  if ¬ dirOk then fs
  else fs.filter (fun e => !(matchesTabCwd e.1 && !unlinkFails e.1))

/-- The daemon's single-instance lock file name (src/smart_tabs/daemon.py,
`acquire_lock`), which lives in the same storage root. -/
def daemonLockName : String := "daemon.pid"

/-! ## core.py: data model

The snapshot returned by the control interface (`kitty @ ls`) is a list of
OS windows, each holding tabs, each holding windows with foreground
processes.  Fields read through `.get(...)` with a default are total fields
carrying the default; a possibly-missing or non-integer `id`/`pid` is an
`Option Int`. -/

structure ProcessInfo where
  pid : Option Int
  cmdline : List String

structure KittyWindow where
  cwd : String
  foreground_processes : List ProcessInfo

structure Tab where
  id : Option Int
  windows : List KittyWindow

structure OsWin where
  tabs : List Tab

/-- The parts of the operating system that CWD resolution consults:
the current uid, the side-channel storage root, the `/proc/<pid>/cwd`
symlink target (`none` when missing or unreadable), and the lines of a
successful `lsof` query (`none` on non-zero status, timeout or absence). -/
structure Env where
  uid : Nat
  fs : Fs
  procSymlink : Int → Option String
  lsofOut : Int → Option (List String)

/-- Truthiness of an optional integer field (Python `if tab_id:`). -/
def intTruthy : Option Int → Bool
  | some n => n ≠ 0
  | none => false

/-- Truthiness of an optional string (Python `if cwd:` on `Optional[str]`). -/
def optStrTruthy : Option String → Bool
  | some s => ¬ chIsEmpty s
  | none => false

/-! ## core.py: CWD resolution -/

/-- The scan over `lsof` output lines inside `get_process_cwd`: the first
line that starts with `n` and carries an absolute path wins. -/
def lsofScan : List String → Option String
  | [] => none
  | line :: rest =>
    if chStartsWith line "n" && chLength line > 1 then
      let cwd := chDrop line 1
      if ¬ chIsEmpty cwd && chStartsWith cwd "/" then some cwd else lsofScan rest
    else lsofScan rest

/-- Translation of `get_process_cwd` (src/smart_tabs/core.py): try the
`/proc` symlink, then `lsof`; only absolute paths are ever returned. -/
def get_process_cwd (env : Env) (pid : Int) : Option String :=
  let procRes : Option String :=
    match env.procSymlink pid with
    | some cwd => if ¬ chIsEmpty cwd && chStartsWith cwd "/" then some cwd else none
    | none => none
  match procRes with
  | some cwd => some cwd
  | none =>
    match env.lsofOut pid with
    | none => none
    | some lines => lsofScan lines

/-- The loop over windows looking for a foreground-process CWD inside
`get_tab_cwd`: in each window with a non-empty process list, the first
process's pid (when truthy) is inspected; a truthy result returns. -/
def windowsProcScan (env : Env) : List KittyWindow → Option String
  | [] => none
  | w :: rest =>
    match w.foreground_processes with
    | [] => windowsProcScan env rest
    | p :: _ =>
      match p.pid with
      | none => windowsProcScan env rest
      | some pid =>
        if pid = 0 then windowsProcScan env rest
        else
          match get_process_cwd env pid with
          | some cwd => if ¬ chIsEmpty cwd then some cwd else windowsProcScan env rest
          | none => windowsProcScan env rest

/-- The final fallback loop of `get_tab_cwd`: the first window reporting a
non-empty `cwd` field, else the empty string. -/
def windowsCwdScan : List KittyWindow → String
  | [] => ""
  | w :: rest => if ¬ chIsEmpty w.cwd then w.cwd else windowsCwdScan rest

/-- Translation of `get_tab_cwd` (src/smart_tabs/core.py): side-channel
record first, then foreground-process introspection, then the reported
CWD; an invalid or missing tab id returns the empty string at once. -/
def get_tab_cwd (env : Env) (tab : Tab) : String :=
  match tab.id with
  | none => ""
  | some tid =>
    if tid ≤ 0 then ""
    else
      match read_cwd_safe env.uid env.fs tid with
      | some cwd =>
        if ¬ chIsEmpty cwd then cwd
        else
          match windowsProcScan env tab.windows with
          | some c => c
          | none => windowsCwdScan tab.windows
      | none =>
        match windowsProcScan env tab.windows with
        | some c => c
        | none => windowsCwdScan tab.windows

/-! ## core.py: process classification -/

/-- Basename: Python `cmd.split('/')[-1]`. -/
def pyBasename (s : String) : String := String.mk ((splitOnChar '/' s.data).getLastD [])

/-- Python truncation `s[:maxLen-3] + '...'` applied when over `maxLen`,
shared by the command and directory-name paths of core.py. -/
def pyTruncate (maxLen : Nat) (s : String) : String :=
  if chLength s > maxLen then chTake s (maxLen - 3) ++ "..." else s

/-- Kitty-related process names filtered by `_parse_process_command`. -/
def kittyTools : List String := ["kitty", "kitten", "color_tabs_by_cwd", "smart_tabs"]

/-- System utilities filtered by `_parse_process_command`. -/
def systemUtils : List String :=
  ["sleep", "wait", "cat", "echo", "true", "false", "test",
   "grep", "sed", "awk", "tail", "head"]

/-- The interpreter table of `_parse_process_command`, mapping a lowercase
interpreter name to its recognized script extensions. -/
def interpExts (s : String) : Option (List String) :=
  if s = "node" then some ["js", "mjs", "cjs"]
  else if s = "python" ∨ s = "python3" ∨ s = "python2" then some ["py"]
  else if s = "ruby" then some ["rb"]
  else if s = "perl" then some ["pl"]
  else if s = "php" then some ["php"]
  else none

/-- Strip the first matching extension (the for-loop with `break`). -/
def stripExt (exts : List String) (name : String) : String :=
  match exts with
  | [] => name
  | e :: rest =>
    if chEndsWith name ("." ++ e) then chDropRight name (chLength e + 1)
    else stripExt rest name

/-- The generic script names that are skipped during the interpreter scan. -/
def genericNames : List String := ["index", "main", "app", "cli", "bin", "start", "run"]

/-- The interpreter-argument scan of `_parse_process_command`: skip flags
and bare path separators, strip directory and matching extension, skip
generic names, stop at the first acceptable non-empty name. -/
def scanScript (exts : List String) : List String → Option String
  | [] => none
  | arg :: rest =>
    if chStartsWith arg "-" || chStartsWith arg "--" then scanScript exts rest
    else if arg = "/" ∨ arg = "." ∨ arg = ".." then scanScript exts rest
    else
      let name := stripExt exts (pyBasename arg)
      if chToLower name ∈ genericNames then scanScript exts rest
      else if ¬ chIsEmpty name then some name
      else scanScript exts rest

/-- Translation of `_parse_process_command` (src/smart_tabs/core.py). -/
def _parse_process_command (config : Config) (process : ProcessInfo) : Option String :=
  match process.cmdline with
  | [] => none
  | cmd :: args =>
    let name0 := pyBasename cmd
    let cmd_name := if chStartsWith name0 "-" then chDrop name0 1 else name0
    if chToLower cmd_name ∈ config.ignored_shells then none
    else if chToLower cmd_name ∈ kittyTools then none
    else if chToLower cmd_name ∈ systemUtils then none
    else if chToLower cmd_name ∈ config.ignored_commands then none
    else if config.ignored_prefixes.any
        (fun p => chStartsWith (chToLower cmd_name) (chToLower p)) then
      none
    else if config.ignored_suffixes.any
        (fun suf => chEndsWith (chToLower cmd_name) (chToLower suf)) then
      none
    else
      let resolved :=
        match interpExts (chToLower cmd_name) with
        | none => cmd_name
        | some exts =>
          match scanScript exts args with
          | some s => s
          | none => cmd_name
      some (pyTruncate config.max_cmd_length resolved)

/-- Translation of `get_running_command` (src/smart_tabs/core.py): only the
first window's foreground processes, falsy (empty) results dropped, a
priority command wins, else the first candidate. -/
def get_running_command (config : Config) (tab : Tab) : Option String :=
  match tab.windows with
  | [] => none
  | window :: _ =>
    match window.foreground_processes with
    | [] => none
    | ps =>
      let candidates := ps.filterMap (fun p =>
        match _parse_process_command config p with
        | some s => if chIsEmpty s then none else some s
        | none => none)
      match candidates with
      | [] => none
      | c0 :: _ =>
        match candidates.find? (fun c => chToLower c ∈ config.priority_commands) with
        | some c => some c
        | none => some c0

/-! ## core.py: reconciliation engine

`update_tabs` is embedded after the point where `kitty @ ls` has succeeded
and parsed: the snapshot `data` is a parameter.  The two process-lifetime
caches are passed in and returned; the external mutation calls and their
success are an oracle (`titleFails`/`colorFails`, per tab id, modelling an
exception from the respective `subprocess.run`). -/

/-- Translation of `validate_tab_id` (src/smart_tabs/core.py) on the
integer domain. -/
def validate_tab_id (tab_id : Int) : Bool := tab_id > 0

/-- ASCII-level model of Python `str.isprintable` (control characters and
DEL are not printable; the unicode category table is out of scope and no
claim depends on it). -/
def pyPrintable (c : Char) : Bool := 32 ≤ c.toNat && c.toNat ≠ 127

/-- Translation of `sanitize_title` (src/smart_tabs/core.py). -/
def sanitize_title (title : String) (max_length : Nat := 256) : String :=
  if chIsEmpty title || chIsEmpty (chTrim title) then "untitled"
  else
    let t := if chLength title > max_length then chTake title max_length else title
    let t := String.mk (t.data.filter pyPrintable)
    if chIsEmpty t || chIsEmpty (chTrim t) then "untitled" else t

/-- Python `cwd.rstrip('/')`. -/
def normCwd (s : String) : String := chDropRightWhile s '/'

/-- Python `cwd.split('/')[-1] if '/' in cwd else cwd`. -/
def dirNameOf (cwd : String) : String :=
  if chContains cwd '/' then pyBasename cwd else cwd

/-- Per-tab what the input cache stores: `(cwd, cmd, tab_index)`; the tab
index is the dict value or the Python default `''` (here `none`). -/
abbrev InputTuple : Type := String × Option String × Option Nat

/-- One entry of `tab_info`: `(cwd, dir_name, cmd)` after normalization and
truncation. -/
abbrev TabInfo : Type := String × String × Option String

/-- The body of the first loop of `update_tabs`, for one tab: extend
`tab_info` (tab id ↦ normalized cwd, truncated directory name, command)
and `cwd_to_color` (normalized cwd ↦ palette color, first-seen wins). -/
def buildInfoStep (env : Env) (config : Config)
    (acc : List (Int × TabInfo) × List (String × String)) (tab : Tab) :
    List (Int × TabInfo) × List (String × String) :=
  let cwd := get_tab_cwd env tab
  let cmd := if config.show_commands then get_running_command config tab else none
  match tab.id with
  | none => acc
  | some tid =>
    if chIsEmpty cwd = false ∧ tid ≠ 0 then
      let cwd := normCwd cwd
      let dir_name := pyTruncate config.max_dir_length (dirNameOf cwd)
      let info := alInsert tid (cwd, dir_name, cmd) acc.1
      let cmap :=
        match alLookup cwd acc.2 with
        | some _ => acc.2
        | none => alInsert cwd (get_color_for_path cwd config.palette) acc.2
      (info, cmap)
    else acc

/-- The first loop of `update_tabs`. -/
def buildInfo (env : Env) (config : Config) (tabs : List Tab) :
    List (Int × TabInfo) × List (String × String) :=
  tabs.foldl (buildInfoStep env config) ([], [])

/-- The second loop of `update_tabs`: `tab_id_to_index`, the 1-based
position of each truthy tab id within its OS window (last wins). -/
def buildIndex (data : List OsWin) : List (Int × Nat) :=
  data.foldl (fun m ow =>
    (ow.tabs.foldl (fun (p : List (Int × Nat) × Nat) tab =>
      match tab.id with
      | some tid => if tid ≠ 0 then (alInsert tid p.2 p.1, p.2 + 1) else (p.1, p.2 + 1)
      | none => (p.1, p.2 + 1)) (m, 1)).1) []

/-- Truthiness of the optional tab index (Python `if tab_index:`, where the
dict default is `''`). -/
def idxTruthy : Option Nat → Bool
  | some n => n ≠ 0
  | none => false

/-- The title format string of `update_tabs`. -/
def mkTitle (config : Config) (tab_index : Option Nat) (dir_name : String)
    (cmd : Option String) : String :=
  let cmdPart := if optStrTruthy cmd then " [" ++ cmd.getD "" ++ "]" else ""
  if config.show_tab_index && idxTruthy tab_index then
    toString (tab_index.getD 0) ++ ": " ++ dir_name ++ cmdPart
  else dir_name ++ cmdPart

/-- A mutation call issued to the control interface. -/
inductive MutCall where
  | setTitle (tab_id : Int) (title : String)
  | setColor (tab_id : Int) (color : String)
deriving DecidableEq, Repr

/-- The running state of the third loop of `update_tabs`: the two caches,
the change counter, and the trace of mutation calls issued so far. -/
structure CycleState where
  inC : List (Int × InputTuple)
  outC : List (Int × (String × String))
  changes : Nat
  calls : List MutCall
deriving Repr

/-- The body of the third loop of `update_tabs` for one `tab_info` item:
validation, early input-cache exit, title/color computation, output-cache
exit, the two mutation calls, and the success-only cache update. -/
def applyTab (titleFails colorFails : Int → Bool) (config : Config)
    (cmap : List (String × String)) (idxMap : List (Int × Nat))
    (st : CycleState) (item : Int × TabInfo) : CycleState :=
  let (tid, (cwd, dir_name, cmd)) := item
  if ¬ validate_tab_id tid then st
  else
    let tab_index := alLookup tid idxMap
    if alLookup tid st.inC = some (cwd, cmd, tab_index) then st
    else
      let color := (alLookup cwd cmap).getD ""
      let title := sanitize_title (mkTitle config tab_index dir_name cmd)
      if alLookup tid st.outC = some (title, color) then st
      else
        let calls1 := st.calls ++ [MutCall.setTitle tid title]
        if titleFails tid then { st with calls := calls1 }
        else
          let calls2 := calls1 ++ [MutCall.setColor tid color]
          if colorFails tid then { st with calls := calls2 }
          else
            { inC := alInsert tid (cwd, cmd, tab_index) st.inC,
              outC := alInsert tid (title, color) st.outC,
              changes := st.changes + 1,
              calls := calls2 }

/-- All tabs of the snapshot, in iteration order. -/
def allTabs (data : List OsWin) : List Tab := (data.map OsWin.tabs).foldr (· ++ ·) []

/-- Translation of `update_tabs` (src/smart_tabs/core.py) after a
successful `kitty @ ls`: build `tab_info`, `cwd_to_color` and
`tab_id_to_index`, then reconcile every `tab_info` entry against the
caches, returning the final caches, change count and call trace. -/
def update_tabs (env : Env) (titleFails colorFails : Int → Bool) (config : Config)
    (data : List OsWin) (inC : List (Int × InputTuple))
    (outC : List (Int × (String × String))) : CycleState :=
  let tabs := allTabs data
  let bi := buildInfo env config tabs
  let idxMap := buildIndex data
  bi.1.foldl (applyTab titleFails colorFails config bi.2 idxMap)
    { inC := inC, outC := outC, changes := 0, calls := [] }

/-! ## daemon.py: adaptive polling -/

/-- The adaptive-interval state of `run_daemon`. -/
structure DaemonState where
  current_interval : ℚ
  idle_iterations : Nat
deriving DecidableEq, Repr

/-- Translation of the interval-adjustment logic at the end of each
`run_daemon` cycle (src/smart_tabs/daemon.py): `max_interval` is 4× the
base, the idle threshold is 3 and the growth factor 1.5; float arithmetic
is modelled exactly over ℚ. -/
def daemonStep (base_interval : ℚ) (st : DaemonState) (changes_made : Nat) : DaemonState :=
  let max_interval := base_interval * 4
  if changes_made = 0 then
    let idle := st.idle_iterations + 1
    if idle ≥ 3 ∧ st.current_interval < max_interval then
      { current_interval := min (st.current_interval * (3 / 2)) max_interval,
        idle_iterations := idle }
    else { st with idle_iterations := idle }
  else
    { current_interval := base_interval, idle_iterations := 0 }

/-! ## Reconciliation-engine lemmas -/

/-- The tab a mutation call addresses. -/
def mutTid : MutCall → Int
  | .setTitle tid _ => tid
  | .setColor tid _ => tid

/-- The skip condition of the third loop of `update_tabs` for one
`tab_info` item: invalid tab id, input-cache hit, or output-cache hit.
When it holds the loop body leaves the state unchanged. -/
def skipsTab (config : Config) (cmap : List (String × String))
    (idxMap : List (Int × Nat)) (inC : List (Int × InputTuple))
    (outC : List (Int × (String × String))) : Int × TabInfo → Prop
  | (tid, (cwd, dn, cmd)) =>
    ¬ validate_tab_id tid = true ∨
    alLookup tid inC = some (cwd, cmd, alLookup tid idxMap) ∨
    alLookup tid outC
      = some (sanitize_title (mkTitle config (alLookup tid idxMap) dn cmd),
          (alLookup cwd cmap).getD "")

/-- `applyTab` written as one conditional chain (definitional unfolding). -/
theorem applyTab_eq (tF cF : Int → Bool) (config : Config)
    (cmap : List (String × String)) (idxMap : List (Int × Nat))
    (st : CycleState) (tid : Int) (cwd dn : String) (cmd : Option String) :
    applyTab tF cF config cmap idxMap st (tid, (cwd, dn, cmd)) =
      (if ¬ validate_tab_id tid = true then st
       else if alLookup tid st.inC = some (cwd, cmd, alLookup tid idxMap) then st
       else if alLookup tid st.outC
            = some (sanitize_title
                (mkTitle config (alLookup tid idxMap) dn cmd),
              (alLookup cwd cmap).getD "") then st
       else if tF tid = true then
         { st with calls := st.calls ++ [MutCall.setTitle tid
             (sanitize_title (mkTitle config (alLookup tid idxMap) dn cmd))] }
       else if cF tid = true then
         { st with calls := st.calls
             ++ [MutCall.setTitle tid
                   (sanitize_title (mkTitle config (alLookup tid idxMap) dn cmd))]
             ++ [MutCall.setColor tid ((alLookup cwd cmap).getD "")] }
       else
         { inC := alInsert tid (cwd, cmd, alLookup tid idxMap) st.inC,
           outC := alInsert tid
             (sanitize_title (mkTitle config (alLookup tid idxMap) dn cmd),
               (alLookup cwd cmap).getD "") st.outC,
           changes := st.changes + 1,
           calls := st.calls
             ++ [MutCall.setTitle tid
                   (sanitize_title (mkTitle config (alLookup tid idxMap) dn cmd))]
             ++ [MutCall.setColor tid ((alLookup cwd cmap).getD "")] }) := rfl

/-- A skipped item leaves the loop state unchanged. -/
theorem applyTab_of_skips {tF cF : Int → Bool} {config : Config}
    {cmap : List (String × String)} {idxMap : List (Int × Nat)}
    {st : CycleState} {item : Int × TabInfo}
    (h : skipsTab config cmap idxMap st.inC st.outC item) :
    applyTab tF cF config cmap idxMap st item = st := by
  obtain ⟨tid, cwd, dn, cmd⟩ := item
  simp only [skipsTab] at h
  rw [applyTab_eq]
  rcases h with h | h | h
  · rw [if_pos h]
  · by_cases h1 : ¬ validate_tab_id tid = true
    · rw [if_pos h1]
    · rw [if_neg h1, if_pos h]
  · by_cases h1 : ¬ validate_tab_id tid = true
    · rw [if_pos h1]
    · rw [if_neg h1]
      by_cases h2 : alLookup tid st.inC = some (cwd, cmd, alLookup tid idxMap)
      · rw [if_pos h2]
      · rw [if_neg h2, if_pos h]

/-- `applyTab_eq` with the validity test in positive form, so that case
splitting enumerates the branches in order. -/
theorem applyTab_eq2 (tF cF : Int → Bool) (config : Config)
    (cmap : List (String × String)) (idxMap : List (Int × Nat))
    (st : CycleState) (tid : Int) (cwd dn : String) (cmd : Option String) :
    applyTab tF cF config cmap idxMap st (tid, (cwd, dn, cmd)) =
      (if validate_tab_id tid = true then
        (if alLookup tid st.inC = some (cwd, cmd, alLookup tid idxMap) then st
         else if alLookup tid st.outC
              = some (sanitize_title
                  (mkTitle config (alLookup tid idxMap) dn cmd),
                (alLookup cwd cmap).getD "") then st
         else if tF tid = true then
           { st with calls := st.calls ++ [MutCall.setTitle tid
               (sanitize_title (mkTitle config (alLookup tid idxMap) dn cmd))] }
         else if cF tid = true then
           { st with calls := st.calls
               ++ [MutCall.setTitle tid
                     (sanitize_title (mkTitle config (alLookup tid idxMap) dn cmd))]
               ++ [MutCall.setColor tid ((alLookup cwd cmap).getD "")] }
         else
           { inC := alInsert tid (cwd, cmd, alLookup tid idxMap) st.inC,
             outC := alInsert tid
               (sanitize_title (mkTitle config (alLookup tid idxMap) dn cmd),
                 (alLookup cwd cmap).getD "") st.outC,
             changes := st.changes + 1,
             calls := st.calls
               ++ [MutCall.setTitle tid
                     (sanitize_title (mkTitle config (alLookup tid idxMap) dn cmd))]
               ++ [MutCall.setColor tid ((alLookup cwd cmap).getD "")] })
       else st) := by
  rw [applyTab_eq]
  by_cases h : validate_tab_id tid = true
  · rw [if_neg (by simp [h]), if_pos h]
  · rw [if_pos h, if_neg h]

/-- The loop body touches the caches only at its own item's key, and only
when both mutation calls succeed. -/
theorem applyTab_lookup_frame (tF cF : Int → Bool) (config : Config)
    (cmap : List (String × String)) (idxMap : List (Int × Nat))
    (st : CycleState) (item : Int × TabInfo) (t : Int)
    (h : t ≠ item.1 ∨ tF t = true ∨ cF t = true) :
    alLookup t (applyTab tF cF config cmap idxMap st item).inC = alLookup t st.inC ∧
      alLookup t (applyTab tF cF config cmap idxMap st item).outC
        = alLookup t st.outC := by
  obtain ⟨tid, cwd, dn, cmd⟩ := item
  rw [applyTab_eq2]
  split_ifs with h1 h2 h3 h4 h5
  · exact ⟨rfl, rfl⟩
  · exact ⟨rfl, rfl⟩
  · exact ⟨rfl, rfl⟩
  · exact ⟨rfl, rfl⟩
  · have hne : t ≠ tid := by
      rcases h with h | h | h
      · exact h
      · intro heq
        rw [heq] at h
        exact h4 h
      · intro heq
        rw [heq] at h
        exact h5 h
    exact ⟨alLookup_insert_ne _ _ (Ne.symm hne), alLookup_insert_ne _ _ (Ne.symm hne)⟩
  · exact ⟨rfl, rfl⟩

/-- After the loop body runs on an item whose mutation calls succeed, the
skip condition holds for that item against the new caches. -/
theorem applyTab_establishes (tF cF : Int → Bool) (config : Config)
    (cmap : List (String × String)) (idxMap : List (Int × Nat))
    (st : CycleState) (item : Int × TabInfo)
    (hTF : tF item.1 = false) (hCF : cF item.1 = false) :
    skipsTab config cmap idxMap (applyTab tF cF config cmap idxMap st item).inC
      (applyTab tF cF config cmap idxMap st item).outC item := by
  obtain ⟨tid, cwd, dn, cmd⟩ := item
  rw [applyTab_eq2]
  split_ifs with h1 h2 h3 h4 h5
  · exact Or.inr (Or.inl h2)
  · exact Or.inr (Or.inr h3)
  · exact absurd h4 (by simp [hTF])
  · exact absurd h5 (by simp [hCF])
  · exact Or.inr (Or.inl (alLookup_insert_self _ _ _))
  · exact Or.inl h1

/-- The calls appended by the loop body address the item's own tab, and a
color call always carries the color assigned to the item's cwd. -/
theorem applyTab_calls (tF cF : Int → Bool) (config : Config)
    (cmap : List (String × String)) (idxMap : List (Int × Nat))
    (st : CycleState) (item : Int × TabInfo) :
    (applyTab tF cF config cmap idxMap st item).calls = st.calls ∨
      (applyTab tF cF config cmap idxMap st item).calls
        = st.calls ++ [MutCall.setTitle item.1
            (sanitize_title (mkTitle config (alLookup item.1 idxMap) item.2.2.1
              item.2.2.2))] ∨
      (applyTab tF cF config cmap idxMap st item).calls
        = st.calls ++ [MutCall.setTitle item.1
              (sanitize_title (mkTitle config (alLookup item.1 idxMap) item.2.2.1
                item.2.2.2))]
            ++ [MutCall.setColor item.1 ((alLookup item.2.1 cmap).getD "")] := by
  obtain ⟨tid, cwd, dn, cmd⟩ := item
  rw [applyTab_eq2]
  split_ifs
  · exact Or.inl rfl
  · exact Or.inl rfl
  · exact Or.inr (Or.inl rfl)
  · exact Or.inr (Or.inr rfl)
  · exact Or.inr (Or.inr rfl)
  · exact Or.inl rfl

/-- The skip condition only reads the caches at the item's own key. -/
theorem skipsTab_of_lookup_eq {config : Config} {cmap : List (String × String)}
    {idxMap : List (Int × Nat)} {inC inC' : List (Int × InputTuple)}
    {outC outC' : List (Int × (String × String))} {item : Int × TabInfo}
    (h1 : alLookup item.1 inC' = alLookup item.1 inC)
    (h2 : alLookup item.1 outC' = alLookup item.1 outC)
    (h : skipsTab config cmap idxMap inC outC item) :
    skipsTab config cmap idxMap inC' outC' item := by
  obtain ⟨tid, cwd, dn, cmd⟩ := item
  simp only [skipsTab] at h ⊢
  simp only at h1 h2
  rcases h with h | h | h
  · exact Or.inl h
  · exact Or.inr (Or.inl (h1.trans h))
  · exact Or.inr (Or.inr (h2.trans h))

/-- The whole third loop leaves the caches unchanged at every key that is
not the key of a processed item or whose mutation calls fail. -/
theorem foldl_lookup_frame (tF cF : Int → Bool) (config : Config)
    (cmap : List (String × String)) (idxMap : List (Int × Nat)) :
    ∀ (items : List (Int × TabInfo)) (st : CycleState) (t : Int),
    (∀ item ∈ items, t ≠ item.1 ∨ tF t = true ∨ cF t = true) →
    alLookup t (items.foldl (applyTab tF cF config cmap idxMap) st).inC
        = alLookup t st.inC ∧
      alLookup t (items.foldl (applyTab tF cF config cmap idxMap) st).outC
        = alLookup t st.outC := by
  intro items
  induction items with
  | nil => intro st t _; exact ⟨rfl, rfl⟩
  | cons cur rest ih =>
    intro st t h
    rw [List.foldl_cons]
    have hcur := applyTab_lookup_frame tF cF config cmap idxMap st cur t
      (h cur (List.mem_cons_self _ _))
    have hrest := ih (applyTab tF cF config cmap idxMap st cur) t
      (fun item hm => h item (List.mem_cons_of_mem _ hm))
    exact ⟨hrest.1.trans hcur.1, hrest.2.trans hcur.2⟩

/-- If every item satisfies the skip condition against the caches of a
state, the whole third loop is the identity on that state. -/
theorem foldl_of_skips (tF cF : Int → Bool) (config : Config)
    (cmap : List (String × String)) (idxMap : List (Int × Nat)) :
    ∀ (items : List (Int × TabInfo)) (st : CycleState),
    (∀ item ∈ items, skipsTab config cmap idxMap st.inC st.outC item) →
    items.foldl (applyTab tF cF config cmap idxMap) st = st := by
  intro items
  induction items with
  | nil => intro st _; rfl
  | cons cur rest ih =>
    intro st h
    rw [List.foldl_cons, applyTab_of_skips (h cur (List.mem_cons_self _ _))]
    exact ih st (fun item hm => h item (List.mem_cons_of_mem _ hm))

/-- After a cycle in which every mutation call succeeds, every processed
item satisfies the skip condition against the final caches. -/
theorem foldl_establishes (tF cF : Int → Bool) (config : Config)
    (cmap : List (String × String)) (idxMap : List (Int × Nat))
    (hTF : ∀ u, tF u = false) (hCF : ∀ u, cF u = false) :
    ∀ (items : List (Int × TabInfo)) (st : CycleState),
    (alKeys items).Nodup →
    ∀ item ∈ items,
      skipsTab config cmap idxMap
        (items.foldl (applyTab tF cF config cmap idxMap) st).inC
        (items.foldl (applyTab tF cF config cmap idxMap) st).outC item := by
  intro items
  induction items with
  | nil => intro st _ item hm; exact absurd hm (List.not_mem_nil _)
  | cons cur rest ih =>
    intro st hnd item hm
    simp only [alKeys, List.map_cons, List.nodup_cons] at hnd
    rw [List.foldl_cons]
    rcases List.mem_cons.1 hm with rfl | hm2
    · -- the head item: established by its own step, preserved by the rest
      have hstep := applyTab_establishes tF cF config cmap idxMap st item
        (hTF item.1) (hCF item.1)
      have hframe := foldl_lookup_frame tF cF config cmap idxMap rest
        (applyTab tF cF config cmap idxMap st item) item.1
        (fun it hmem => Or.inl (fun heq => hnd.1
          (by
            rw [heq]
            exact (by simpa [alKeys] using List.mem_map_of_mem Prod.fst hmem))))
      exact skipsTab_of_lookup_eq hframe.1 hframe.2 hstep
    · exact ih (applyTab tF cF config cmap idxMap st cur) hnd.2 item hm2

/-- Every `setColor` call in the loop's trace addresses a processed item
and carries the color assigned to that item's cwd in `cwd_to_color`. -/
theorem foldl_colorSpec (tF cF : Int → Bool) (config : Config)
    (cmap : List (String × String)) (idxMap : List (Int × Nat))
    (big : List (Int × TabInfo)) :
    ∀ (items : List (Int × TabInfo)) (st : CycleState),
    (∀ item ∈ items, item ∈ big) →
    (∀ t c, MutCall.setColor t c ∈ st.calls →
      ∃ cwd dn cmd, (t, (cwd, dn, cmd)) ∈ big ∧ c = (alLookup cwd cmap).getD "") →
    ∀ t c, MutCall.setColor t c
        ∈ (items.foldl (applyTab tF cF config cmap idxMap) st).calls →
      ∃ cwd dn cmd, (t, (cwd, dn, cmd)) ∈ big ∧ c = (alLookup cwd cmap).getD "" := by
  intro items
  induction items with
  | nil => intro st _ hbase t c hc; exact hbase t c hc
  | cons cur rest ih =>
    intro st hsub hbase t c hc
    rw [List.foldl_cons] at hc
    refine ih (applyTab tF cF config cmap idxMap st cur)
      (fun item hm => hsub item (List.mem_cons_of_mem _ hm)) ?_ t c hc
    intro t' c' hc'
    rcases applyTab_calls tF cF config cmap idxMap st cur with hcl | hcl | hcl
    · exact hbase t' c' (hcl ▸ hc')
    · rw [hcl] at hc'
      rcases List.mem_append.1 hc' with h | h
      · exact hbase t' c' h
      · simp at h
    · rw [hcl] at hc'
      rcases List.mem_append.1 hc' with h | h
      · rcases List.mem_append.1 h with h2 | h2
        · exact hbase t' c' h2
        · simp at h2
      · have h2 : MutCall.setColor t' c'
            = MutCall.setColor cur.1 ((alLookup cur.2.1 cmap).getD "") := by
          simpa using h
        injection h2 with h3 h4
        refine ⟨cur.2.1, cur.2.2.1, cur.2.2.2, ?_, h4⟩
        rw [h3]
        exact hsub cur (List.mem_cons_self _ _)

/-- `tab_info` never holds two entries with the same tab id. -/
theorem buildInfo_keys_nodup (env : Env) (config : Config) (tabs : List Tab) :
    (alKeys (buildInfo env config tabs).1).Nodup := by
  have aux : ∀ (ts : List Tab) (acc : List (Int × TabInfo) × List (String × String)),
      (alKeys acc.1).Nodup →
      (alKeys (ts.foldl (buildInfoStep env config) acc).1).Nodup := by
    intro ts
    induction ts with
    | nil => intro acc h; exact h
    | cons tab rest ih =>
      intro acc h
      rw [List.foldl_cons]
      refine ih _ ?_
      unfold buildInfoStep
      dsimp only
      cases tab.id with
      | none => exact h
      | some tid =>
        dsimp only
        generalize (if config.show_commands = true then get_running_command config tab
          else none) = cmdv
        split_ifs with h1
        · exact alKeys_insert_nodup tid _ acc.1 h
        · exact h
  exact aux tabs ([], []) (by simp [alKeys])

/-! ## Claims about the Reconciliation Engine -/

/-- A sample environment: one side-channel record for tab 1. -/
def sampleEnv : Env :=
  ⟨1000, [("tab_1_cwd", ⟨1000, 384, "/home/user/proj"⟩)], fun _ => none, fun _ => none⟩

/-- A sample snapshot: tab 1 (side-channel cwd, running nvim) and tab 2
(reported cwd only) — both resolving to the same directory. -/
def sampleData : List OsWin :=
  [⟨[⟨some 1, [⟨"", [⟨some 7, ["nvim"]⟩]⟩]⟩,
     ⟨some 2, [⟨"/home/user/proj", []⟩]⟩]⟩]

/-- C4: if a reconciliation cycle runs to completion (every mutation call
succeeds) and a second cycle runs on the unchanged snapshot, the second
cycle issues zero mutation calls, reports zero changes, and leaves both
caches exactly as the first cycle left them — each tab short-circuits on
the input cache or the output cache before any mutation. -/
theorem C4_idempotent (env : Env) (tF cF : Int → Bool) (config : Config)
    (data : List OsWin) (inC : List (Int × InputTuple))
    (outC : List (Int × (String × String)))
    (hTF : ∀ u, tF u = false) (hCF : ∀ u, cF u = false) :
    (update_tabs env tF cF config data
        (update_tabs env tF cF config data inC outC).inC
        (update_tabs env tF cF config data inC outC).outC).changes = 0 ∧
    (update_tabs env tF cF config data
        (update_tabs env tF cF config data inC outC).inC
        (update_tabs env tF cF config data inC outC).outC).calls = [] ∧
    (update_tabs env tF cF config data
        (update_tabs env tF cF config data inC outC).inC
        (update_tabs env tF cF config data inC outC).outC).inC
      = (update_tabs env tF cF config data inC outC).inC ∧
    (update_tabs env tF cF config data
        (update_tabs env tF cF config data inC outC).inC
        (update_tabs env tF cF config data inC outC).outC).outC
      = (update_tabs env tF cF config data inC outC).outC := by
  have hnd := buildInfo_keys_nodup env config (allTabs data)
  have hskips := foldl_establishes tF cF config
    (buildInfo env config (allTabs data)).2 (buildIndex data)
    hTF hCF (buildInfo env config (allTabs data)).1
    ⟨inC, outC, 0, []⟩ hnd
  have h2 := foldl_of_skips tF cF config
    (buildInfo env config (allTabs data)).2 (buildIndex data)
    (buildInfo env config (allTabs data)).1
    ⟨(List.foldl (applyTab tF cF config (buildInfo env config (allTabs data)).2
        (buildIndex data)) ⟨inC, outC, 0, []⟩ (buildInfo env config (allTabs data)).1).inC,
     (List.foldl (applyTab tF cF config (buildInfo env config (allTabs data)).2
        (buildIndex data)) ⟨inC, outC, 0, []⟩ (buildInfo env config (allTabs data)).1).outC,
     0, []⟩ hskips
  unfold update_tabs
  dsimp only
  rw [h2]
  exact ⟨rfl, rfl, rfl, rfl⟩

/-- Witness for C4 at the sample snapshot with all mutations succeeding. -/
theorem C4_witness :
    (update_tabs sampleEnv (fun _ => false) (fun _ => false) defaultConfig sampleData
        (update_tabs sampleEnv (fun _ => false) (fun _ => false) defaultConfig
          sampleData [] []).inC
        (update_tabs sampleEnv (fun _ => false) (fun _ => false) defaultConfig
          sampleData [] []).outC).changes = 0 ∧
    (update_tabs sampleEnv (fun _ => false) (fun _ => false) defaultConfig sampleData
        (update_tabs sampleEnv (fun _ => false) (fun _ => false) defaultConfig
          sampleData [] []).inC
        (update_tabs sampleEnv (fun _ => false) (fun _ => false) defaultConfig
          sampleData [] []).outC).calls = [] :=
  ⟨(C4_idempotent sampleEnv (fun _ => false) (fun _ => false) defaultConfig sampleData
      [] [] (fun _ => rfl) (fun _ => rfl)).1,
   (C4_idempotent sampleEnv (fun _ => false) (fun _ => false) defaultConfig sampleData
      [] [] (fun _ => rfl) (fun _ => rfl)).2.1⟩

/-- C5: within a single reconciliation cycle, any two tabs whose resolved,
trailing-slash-normalized cwd values (as recorded in `tab_info`) are
identical receive the identical color in their `set-tab-color` mutation
calls: every emitted color is the `cwd_to_color` entry of the tab's cwd. -/
theorem C5_same_cwd_same_color (env : Env) (tF cF : Int → Bool) (config : Config)
    (data : List OsWin) (inC : List (Int × InputTuple))
    (outC : List (Int × (String × String))) (t1 t2 : Int) (p d1 d2 : String)
    (m1 m2 : Option String) (c1 c2 : String)
    (h1 : (t1, (p, d1, m1)) ∈ (buildInfo env config (allTabs data)).1)
    (h2 : (t2, (p, d2, m2)) ∈ (buildInfo env config (allTabs data)).1)
    (hc1 : MutCall.setColor t1 c1
      ∈ (update_tabs env tF cF config data inC outC).calls)
    (hc2 : MutCall.setColor t2 c2
      ∈ (update_tabs env tF cF config data inC outC).calls) :
    c1 = c2 := by
  have hnd := buildInfo_keys_nodup env config (allTabs data)
  have hspec := foldl_colorSpec tF cF config
    (buildInfo env config (allTabs data)).2 (buildIndex data)
    (buildInfo env config (allTabs data)).1 (buildInfo env config (allTabs data)).1
    ⟨inC, outC, 0, []⟩ (fun i hi => hi)
    (fun t c hc => absurd hc (List.not_mem_nil _))
  obtain ⟨cwd1, dn1, cm1, hmem1, hcq1⟩ := hspec t1 c1 hc1
  obtain ⟨cwd2, dn2, cm2, hmem2, hcq2⟩ := hspec t2 c2 hc2
  have e1 := mem_value_unique_of_nodup h1 hmem1 hnd
  have e2 := mem_value_unique_of_nodup h2 hmem2 hnd
  have ep1 : p = cwd1 := congrArg Prod.fst e1
  have ep2 : p = cwd2 := congrArg Prod.fst e2
  rw [hcq1, hcq2, ← ep1, ← ep2]

set_option maxRecDepth 40000 in
/-- Witness for C5: tabs 1 and 2 of the sample snapshot share the cwd
`/home/user/proj` and both color calls carry `#79dac8`. -/
theorem C5_witness :
    (1, ("/home/user/proj", "proj", some "nvim"))
        ∈ (buildInfo sampleEnv defaultConfig (allTabs sampleData)).1 ∧
      (2, ("/home/user/proj", "proj", none))
        ∈ (buildInfo sampleEnv defaultConfig (allTabs sampleData)).1 ∧
      MutCall.setColor 1 "#79dac8"
        ∈ (update_tabs sampleEnv (fun _ => false) (fun _ => false) defaultConfig
            sampleData [] []).calls ∧
      MutCall.setColor 2 "#79dac8"
        ∈ (update_tabs sampleEnv (fun _ => false) (fun _ => false) defaultConfig
            sampleData [] []).calls ∧
      ("#79dac8" : String) = "#79dac8" :=
  ⟨by decide, by decide, by decide, by decide,
   C5_same_cwd_same_color sampleEnv (fun _ => false) (fun _ => false) defaultConfig
     sampleData [] [] 1 2 "/home/user/proj" "proj" "proj" (some "nvim") none
     "#79dac8" "#79dac8" (by decide) (by decide) (by decide) (by decide)⟩

/-- Appending calls that all address tab `t` does not change the trace
filtered away from `t`. -/
theorem filter_append_tid (t : Int) (cs l : List MutCall)
    (h : ∀ c ∈ l, mutTid c = t) :
    (cs ++ l).filter (fun c => mutTid c != t)
      = cs.filter (fun c => mutTid c != t) := by
  rw [List.filter_append]
  have hl : l.filter (fun c => mutTid c != t) = [] := by
    induction l with
    | nil => rfl
    | cons c cs2 ih =>
      rw [List.filter_cons]
      rw [if_neg (by simp [h c (List.mem_cons_self _ _)])]
      exact ih (fun c2 hc2 => h c2 (List.mem_cons_of_mem _ hc2))
  rw [hl, List.append_nil]

/-- One step of the loop, run under two failure oracles that agree away
from tab `t`, preserves agreement of the caches and of the `t`-free call
trace. -/
theorem applyTab_sim (tF cF tF' cF' : Int → Bool) (config : Config)
    (cmap : List (String × String)) (idxMap : List (Int × Nat)) (t : Int)
    (htF : ∀ u, u ≠ t → tF' u = tF u) (hcF : ∀ u, u ≠ t → cF' u = cF u)
    (st st' : CycleState)
    (hin : ∀ u, u ≠ t → alLookup u st'.inC = alLookup u st.inC)
    (hout : ∀ u, u ≠ t → alLookup u st'.outC = alLookup u st.outC)
    (hcalls : st'.calls.filter (fun c => mutTid c != t)
      = st.calls.filter (fun c => mutTid c != t))
    (item : Int × TabInfo) :
    (∀ u, u ≠ t →
      alLookup u (applyTab tF' cF' config cmap idxMap st' item).inC
        = alLookup u (applyTab tF cF config cmap idxMap st item).inC) ∧
    (∀ u, u ≠ t →
      alLookup u (applyTab tF' cF' config cmap idxMap st' item).outC
        = alLookup u (applyTab tF cF config cmap idxMap st item).outC) ∧
    (applyTab tF' cF' config cmap idxMap st' item).calls.filter
        (fun c => mutTid c != t)
      = (applyTab tF cF config cmap idxMap st item).calls.filter
        (fun c => mutTid c != t) := by
  obtain ⟨tid, cwd, dn, cmd⟩ := item
  by_cases ht : tid = t
  · -- the distinguished tab: both sides may diverge, but only at key `t`
    subst ht
    have key' : ∀ u, u ≠ tid →
        alLookup u (applyTab tF' cF' config cmap idxMap st' (tid, (cwd, dn, cmd))).inC
            = alLookup u st'.inC ∧
          alLookup u (applyTab tF' cF' config cmap idxMap st' (tid, (cwd, dn, cmd))).outC
            = alLookup u st'.outC :=
      fun u hu => applyTab_lookup_frame tF' cF' config cmap idxMap st'
        (tid, (cwd, dn, cmd)) u (Or.inl hu)
    have key : ∀ u, u ≠ tid →
        alLookup u (applyTab tF cF config cmap idxMap st (tid, (cwd, dn, cmd))).inC
            = alLookup u st.inC ∧
          alLookup u (applyTab tF cF config cmap idxMap st (tid, (cwd, dn, cmd))).outC
            = alLookup u st.outC :=
      fun u hu => applyTab_lookup_frame tF cF config cmap idxMap st
        (tid, (cwd, dn, cmd)) u (Or.inl hu)
    have hsingle : ∀ (x : String),
        ∀ c ∈ [MutCall.setTitle tid x], mutTid c = tid := by
      intro x c hc
      simp only [List.mem_singleton] at hc
      subst hc
      rfl
    have hcolor : ∀ (x : String),
        ∀ c ∈ [MutCall.setColor tid x], mutTid c = tid := by
      intro x c hc
      simp only [List.mem_singleton] at hc
      subst hc
      rfl
    have kc' : (applyTab tF' cF' config cmap idxMap st' (tid, (cwd, dn, cmd))).calls.filter
        (fun c => mutTid c != tid) = st'.calls.filter (fun c => mutTid c != tid) := by
      rcases applyTab_calls tF' cF' config cmap idxMap st' (tid, (cwd, dn, cmd))
        with s | s | s
      · rw [s]
      · rw [s, filter_append_tid tid _ _ (hsingle _)]
      · rw [s, filter_append_tid tid _ _ (hcolor _),
          filter_append_tid tid _ _ (hsingle _)]
    have kc : (applyTab tF cF config cmap idxMap st (tid, (cwd, dn, cmd))).calls.filter
        (fun c => mutTid c != tid) = st.calls.filter (fun c => mutTid c != tid) := by
      rcases applyTab_calls tF cF config cmap idxMap st (tid, (cwd, dn, cmd))
        with s | s | s
      · rw [s]
      · rw [s, filter_append_tid tid _ _ (hsingle _)]
      · rw [s, filter_append_tid tid _ _ (hcolor _),
          filter_append_tid tid _ _ (hsingle _)]
    exact ⟨fun u hu => ((key' u hu).1.trans (hin u hu)).trans ((key u hu).1).symm,
      fun u hu => ((key' u hu).2.trans (hout u hu)).trans ((key u hu).2).symm,
      (kc'.trans hcalls).trans kc.symm⟩
  · -- any other tab: both sides take the same branch and do the same thing
    have e1 := hin tid ht
    have e2 := hout tid ht
    have e3 := htF tid ht
    have e4 := hcF tid ht
    simp only [applyTab_eq2]
    rw [e1, e2, e3, e4]
    split_ifs with k1 k2 k3 k4 k5
    · exact ⟨hin, hout, hcalls⟩
    · exact ⟨hin, hout, hcalls⟩
    · refine ⟨hin, hout, ?_⟩
      simp only [List.filter_append, hcalls]
    · refine ⟨hin, hout, ?_⟩
      simp only [List.filter_append, hcalls]
    · refine ⟨?_, ?_, ?_⟩
      · intro u hu
        by_cases hu2 : u = tid
        · subst hu2
          rw [alLookup_insert_self, alLookup_insert_self]
        · rw [alLookup_insert_ne _ _ (fun heq => hu2 heq.symm),
            alLookup_insert_ne _ _ (fun heq => hu2 heq.symm)]
          exact hin u hu
      · intro u hu
        by_cases hu2 : u = tid
        · subst hu2
          rw [alLookup_insert_self, alLookup_insert_self]
        · rw [alLookup_insert_ne _ _ (fun heq => hu2 heq.symm),
            alLookup_insert_ne _ _ (fun heq => hu2 heq.symm)]
          exact hout u hu
      · simp only [List.filter_append, hcalls]
    · exact ⟨hin, hout, hcalls⟩

/-- The whole loop, run under two failure oracles that agree away from
tab `t`, preserves agreement of the caches and of the `t`-free trace. -/
theorem foldl_sim (tF cF tF' cF' : Int → Bool) (config : Config)
    (cmap : List (String × String)) (idxMap : List (Int × Nat)) (t : Int)
    (htF : ∀ u, u ≠ t → tF' u = tF u) (hcF : ∀ u, u ≠ t → cF' u = cF u) :
    ∀ (items : List (Int × TabInfo)) (st st' : CycleState),
    (∀ u, u ≠ t → alLookup u st'.inC = alLookup u st.inC) →
    (∀ u, u ≠ t → alLookup u st'.outC = alLookup u st.outC) →
    st'.calls.filter (fun c => mutTid c != t)
        = st.calls.filter (fun c => mutTid c != t) →
    (∀ u, u ≠ t →
      alLookup u (items.foldl (applyTab tF' cF' config cmap idxMap) st').inC
        = alLookup u (items.foldl (applyTab tF cF config cmap idxMap) st).inC) ∧
    (∀ u, u ≠ t →
      alLookup u (items.foldl (applyTab tF' cF' config cmap idxMap) st').outC
        = alLookup u (items.foldl (applyTab tF cF config cmap idxMap) st).outC) ∧
    (items.foldl (applyTab tF' cF' config cmap idxMap) st').calls.filter
        (fun c => mutTid c != t)
      = (items.foldl (applyTab tF cF config cmap idxMap) st).calls.filter
        (fun c => mutTid c != t) := by
  intro items
  induction items with
  | nil => intro st st' hin hout hcalls; exact ⟨hin, hout, hcalls⟩
  | cons cur rest ih =>
    intro st st' hin hout hcalls
    rw [List.foldl_cons, List.foldl_cons]
    obtain ⟨hin2, hout2, hcalls2⟩ :=
      applyTab_sim tF cF tF' cF' config cmap idxMap t htF hcF st st' hin hout hcalls cur
    exact ih _ _ hin2 hout2 hcalls2

/-- C1: the caches of a tab are updated, and the change counter
incremented, only when both of the tab's mutation calls succeed.  Over a
whole cycle, a tab with a failing title or color call keeps both its cache
entries untouched; at each loop step, a changed counter means both calls
succeeded, the counter grew by one, and both caches were updated at that
tab's key; an unchanged counter means the caches did not change at all;
and a tab's failures do not affect any other tab: the caches at every
other key and the mutation calls for every other tab are identical to a
run with different failure behaviour at that tab alone (one tab's failure
never aborts the cycle). -/
theorem C1_caches_require_success (env : Env) (tF cF : Int → Bool)
    (config : Config) (data : List OsWin) (inC : List (Int × InputTuple))
    (outC : List (Int × (String × String))) :
    (∀ t : Int, tF t = true ∨ cF t = true →
      alLookup t (update_tabs env tF cF config data inC outC).inC = alLookup t inC ∧
        alLookup t (update_tabs env tF cF config data inC outC).outC
          = alLookup t outC) ∧
    (∀ (cmap : List (String × String)) (idxMap : List (Int × Nat))
        (st : CycleState) (item : Int × TabInfo),
      (applyTab tF cF config cmap idxMap st item).changes ≠ st.changes →
        tF item.1 = false ∧ cF item.1 = false ∧
          (applyTab tF cF config cmap idxMap st item).changes = st.changes + 1 ∧
          (∃ tup, (applyTab tF cF config cmap idxMap st item).inC
            = alInsert item.1 tup st.inC) ∧
          (∃ pr, (applyTab tF cF config cmap idxMap st item).outC
            = alInsert item.1 pr st.outC)) ∧
    (∀ (cmap : List (String × String)) (idxMap : List (Int × Nat))
        (st : CycleState) (item : Int × TabInfo),
      (applyTab tF cF config cmap idxMap st item).changes = st.changes →
        (applyTab tF cF config cmap idxMap st item).inC = st.inC ∧
          (applyTab tF cF config cmap idxMap st item).outC = st.outC) ∧
    (∀ (tF' cF' : Int → Bool) (t : Int),
      (∀ u, u ≠ t → tF' u = tF u) → (∀ u, u ≠ t → cF' u = cF u) →
      (∀ u, u ≠ t →
        alLookup u (update_tabs env tF' cF' config data inC outC).inC
            = alLookup u (update_tabs env tF cF config data inC outC).inC ∧
          alLookup u (update_tabs env tF' cF' config data inC outC).outC
            = alLookup u (update_tabs env tF cF config data inC outC).outC) ∧
      (update_tabs env tF' cF' config data inC outC).calls.filter
          (fun c => mutTid c != t)
        = (update_tabs env tF cF config data inC outC).calls.filter
          (fun c => mutTid c != t)) := by
  refine ⟨?_, ?_, ?_, ?_⟩
  · intro t h
    unfold update_tabs
    dsimp only
    exact foldl_lookup_frame tF cF config (buildInfo env config (allTabs data)).2
      (buildIndex data) (buildInfo env config (allTabs data)).1
      ⟨inC, outC, 0, []⟩ t (fun item _ => Or.inr h)
  · intro cmap idxMap st item h
    obtain ⟨tid, cwd, dn, cmd⟩ := item
    rw [applyTab_eq2] at h ⊢
    split_ifs at h ⊢ with k1 k2 k3 k4 k5
    · exact absurd rfl h
    · exact absurd rfl h
    · exact absurd rfl h
    · exact absurd rfl h
    · exact ⟨Bool.not_eq_true _ ▸ k4, Bool.not_eq_true _ ▸ k5, rfl,
        ⟨_, rfl⟩, ⟨_, rfl⟩⟩
    · exact absurd rfl h
  · intro cmap idxMap st item h
    obtain ⟨tid, cwd, dn, cmd⟩ := item
    rw [applyTab_eq2] at h ⊢
    split_ifs at h ⊢ with k1 k2 k3 k4 k5
    · exact ⟨rfl, rfl⟩
    · exact ⟨rfl, rfl⟩
    · exact ⟨rfl, rfl⟩
    · exact ⟨rfl, rfl⟩
    · dsimp only at h
      omega
    · exact ⟨rfl, rfl⟩
  · intro tF' cF' t htF hcF
    unfold update_tabs
    dsimp only
    obtain ⟨hin, hout, hcalls⟩ := foldl_sim tF cF tF' cF' config
      (buildInfo env config (allTabs data)).2 (buildIndex data) t htF hcF
      (buildInfo env config (allTabs data)).1
      ⟨inC, outC, 0, []⟩ ⟨inC, outC, 0, []⟩
      (fun _ _ => rfl) (fun _ _ => rfl) rfl
    exact ⟨fun u hu => ⟨hin u hu, hout u hu⟩, hcalls⟩

/-- Witness for C1: with the title call failing for every tab, the sample
cycle leaves the cache entries of tab 1 untouched. -/
theorem C1_witness :
    ((fun _ : Int => true) 1 = true ∨ (fun _ : Int => false) 1 = true) ∧
      alLookup 1 (update_tabs sampleEnv (fun _ => true) (fun _ => false)
          defaultConfig sampleData [] []).inC
        = alLookup 1 ([] : List (Int × InputTuple)) ∧
      alLookup 1 (update_tabs sampleEnv (fun _ => true) (fun _ => false)
          defaultConfig sampleData [] []).outC
        = alLookup 1 ([] : List (Int × (String × String))) :=
  ⟨Or.inl rfl,
   ((C1_caches_require_success sampleEnv (fun _ => true) (fun _ => false)
       defaultConfig sampleData [] []).1 1 (Or.inl rfl)).1,
   ((C1_caches_require_success sampleEnv (fun _ => true) (fun _ => false)
       defaultConfig sampleData [] []).1 1 (Or.inl rfl)).2⟩

/-! ## Claims about the Color Assigner -/

/-- C6: for every string `p` (the empty string, unicode and arbitrarily long
strings included — `get_color_for_path` is a total Lean function, so it
terminates without error and is deterministic by construction) and every
non-empty palette, the returned color is an element of the palette; a
single-element palette always returns its one color. -/
theorem C6_color_total_member (p : String) (palette : List String)
    (hne : palette ≠ []) :
    get_color_for_path p palette ∈ palette ∧
      (∀ c, palette = [c] → get_color_for_path p palette = c) := by
  constructor
  · have hlen : 0 < palette.length := List.length_pos.2 hne
    have hidx : md5Int p % palette.length < palette.length := Nat.mod_lt _ hlen
    unfold get_color_for_path
    rw [List.getD_eq_getElem?_getD, List.getElem?_eq_getElem hidx]
    exact List.getElem_mem _
  · rintro c rfl
    simp [get_color_for_path, Nat.mod_one]

/-- Witness for C6 at the built-in palette and the empty string. -/
theorem C6_witness :
    fallbackPalette ≠ [] ∧ get_color_for_path "" fallbackPalette ∈ fallbackPalette :=
  ⟨by decide, (C6_color_total_member "" fallbackPalette (by decide)).1⟩

/-! ## Claims about the Adaptive Poll Loop -/

/-- One daemon cycle keeps the interval below the ceiling. -/
theorem daemonStep_interval_le (base : ℚ) (st : DaemonState) (c : Nat)
    (hb : 0 ≤ base) (hle : st.current_interval ≤ base * 4) :
    (daemonStep base st c).current_interval ≤ base * 4 := by
  unfold daemonStep
  dsimp only
  split
  · split
    · simp only []
      exact min_le_right _ _
    · exact hle
  · simp only []
    nlinarith

/-- C9: after a zero-change cycle the idle counter is incremented, and once
it has reached the threshold 3 while the interval is below the ceiling
(4× base), the interval is multiplied by 1.5 capped at the ceiling; the
interval never exceeds the ceiling (also along any run of cycles); a cycle
with a nonzero change count resets the interval to the base and the idle
counter to zero. -/
theorem C9_adaptive_interval (base : ℚ) (st : DaemonState) (changes : Nat) :
    (changes = 0 → (daemonStep base st changes).idle_iterations = st.idle_iterations + 1) ∧
    (changes = 0 → 3 ≤ st.idle_iterations + 1 → st.current_interval < base * 4 →
      (daemonStep base st changes).current_interval
        = min (st.current_interval * (3 / 2)) (base * 4)) ∧
    (changes ≠ 0 → daemonStep base st changes = ⟨base, 0⟩) ∧
    (0 ≤ base → st.current_interval ≤ base * 4 →
      (daemonStep base st changes).current_interval ≤ base * 4) ∧
    (∀ runs : List Nat, 0 ≤ base → st.current_interval ≤ base * 4 →
      (runs.foldl (daemonStep base) st).current_interval ≤ base * 4) := by
  refine ⟨?_, ?_, ?_, ?_, ?_⟩
  · intro h
    unfold daemonStep
    simp only [h, if_true, eq_self_iff_true]
    split <;> rfl
  · intro h h2 h3
    unfold daemonStep
    simp [h, h2, h3]
  · intro h
    unfold daemonStep
    simp [h]
  · intro hb hle
    exact daemonStep_interval_le base st changes hb hle
  · intro runs
    induction runs generalizing st with
    | nil => intro hb hle; simpa using hle
    | cons c cs ih =>
      intro hb hle
      rw [List.foldl_cons]
      exact ih _ hb (daemonStep_interval_le base st c hb hle)

/-- Witness for C9: base 2, interval 2, two idle cycles then a third. -/
theorem C9_witness :
    (daemonStep 2 ⟨2, 0⟩ 0).idle_iterations = 0 + 1 ∧
      (daemonStep 2 ⟨2, 2⟩ 0).current_interval = min ((2 : ℚ) * (3 / 2)) (2 * 4) ∧
      daemonStep 2 ⟨3, 2⟩ 5 = ⟨2, 0⟩ :=
  ⟨(C9_adaptive_interval 2 ⟨2, 0⟩ 0).1 rfl,
   (C9_adaptive_interval 2 ⟨2, 2⟩ 0).2.1 rfl (by decide) (by norm_num),
   (C9_adaptive_interval 2 ⟨3, 2⟩ 5).2.2.1 (by decide)⟩

/-! ## Claims about the Secure Side-Channel Store -/

/-- Lookup through a key-predicate filter. -/
theorem alLookup_filter_key {β : Type} (q : String → Bool) (fs : List (String × β))
    (k : String) :
    alLookup k (fs.filter (fun e => q e.1)) = if q k then alLookup k fs else none := by
  induction fs with
  | nil => simp [alLookup]
  | cons hd tl ih =>
    obtain ⟨k', v'⟩ := hd
    by_cases h : k' = k
    · subst h
      by_cases hq : q k' <;> simp [alLookup, hq, ih]
    · by_cases hq : q k' <;> simp [alLookup, h, hq, ih]

/-- C10: the bulk cleanup deletes exactly the files matching the per-tab
record pattern `tab_*_cwd`: any file whose name does not match — in
particular the daemon's lock file `daemon.pid`, which lives in the same
directory — is left unchanged, no file is ever created, and a matching
file is removed when the directory is reachable and its unlink succeeds
(`cleanup_temp_files` is a total function: it never raises). -/
theorem C10_cleanup_frame :
    (∀ (dirOk : Bool) (unlinkFails : String → Bool) (fs : Fs) (name : String),
      matchesTabCwd name = false →
      alLookup name (cleanup_temp_files dirOk unlinkFails fs) = alLookup name fs) ∧
    matchesTabCwd daemonLockName = false ∧
    (∀ (dirOk : Bool) (unlinkFails : String → Bool) (fs : Fs),
      alLookup daemonLockName (cleanup_temp_files dirOk unlinkFails fs)
        = alLookup daemonLockName fs) ∧
    (∀ (dirOk : Bool) (unlinkFails : String → Bool) (fs : Fs) (name : String),
      alLookup name fs = none →
      alLookup name (cleanup_temp_files dirOk unlinkFails fs) = none) ∧
    (∀ (unlinkFails : String → Bool) (fs : Fs) (name : String),
      matchesTabCwd name = true → unlinkFails name = false →
      alLookup name (cleanup_temp_files true unlinkFails fs) = none) := by
  have key : ∀ (dirOk : Bool) (uf : String → Bool) (fs : Fs) (name : String),
      alLookup name (cleanup_temp_files dirOk uf fs)
        = if dirOk then
            (if !(matchesTabCwd name && !uf name) then alLookup name fs else none)
          else alLookup name fs := by
    intro dirOk uf fs name
    unfold cleanup_temp_files
    by_cases hd : dirOk
    · simpa [hd] using alLookup_filter_key (fun n => !(matchesTabCwd n && !uf n)) fs name
    · simp [hd]
  refine ⟨?_, ?_, ?_, ?_, ?_⟩
  · intro dirOk uf fs name h
    rw [key]
    by_cases hd : dirOk <;> simp [hd, h]
  · decide
  · intro dirOk uf fs
    rw [key]
    by_cases hd : dirOk <;> simp [hd, show matchesTabCwd daemonLockName = false by decide]
  · intro dirOk uf fs name h
    rw [key]
    by_cases hd : dirOk <;> by_cases hm : matchesTabCwd name && !uf name <;>
      simp [hd, hm, h]
  · intro uf fs name hm hf
    rw [key]
    simp [hm, hf]

/-- The file-mode test `st_mode & 0o077` is the group and other permission
bits. -/
theorem mode_land63 (m : Nat) : m &&& 63 = m % 64 := by
  have h := Nat.and_pow_two_sub_one_eq_mod m 6
  norm_num at h
  exact h

/-- C2 counterexample: a record whose trimmed content contains the
parent-directory traversal segment `/..` — which the write-time rules
reject — is accepted and returned by the side-channel read. -/
theorem C2_counterexample :
    read_cwd_safe 1000 [("tab_1_cwd", ⟨1000, 384, "/a/.."⟩)] 1 = some "/a/.." ∧
      hasSubstr "/.." "/a/.." = true ∧
      (write_cwd_atomic 1000 ⟨true, true, true, true, "x"⟩ [] 1 "/a/..").1
        = some "Path traversal not allowed: /a/.." := by decide

/-- C2 (amended): the side-channel read returns nothing when the record
file does not exist, when its owner differs from the current user, when
its permission bits grant any access to group or other, or when the
trimmed content is empty, not absolute, or longer than 4096 characters —
and otherwise returns the trimmed content.  (Unlike the write-time rules,
the read performs no parent-traversal check, and both sides measure
length in characters, not bytes.)  The function is total: it never raises. -/
theorem C2_read_validation (uid : Nat) (fs : Fs) (tid : Int) :
    (tid ≤ 0 → read_cwd_safe uid fs tid = none) ∧
    (alLookup (cwdFileName tid) fs = none → read_cwd_safe uid fs tid = none) ∧
    (∀ f, alLookup (cwdFileName tid) fs = some f → f.uid ≠ uid →
      read_cwd_safe uid fs tid = none) ∧
    (∀ f, alLookup (cwdFileName tid) fs = some f →
      f.mode / 8 % 8 ≠ 0 ∨ f.mode % 8 ≠ 0 → read_cwd_safe uid fs tid = none) ∧
    (∀ f, alLookup (cwdFileName tid) fs = some f →
      chTrim f.content = "" ∨ chStartsWith (chTrim f.content) "/" = false ∨
        chLength (chTrim f.content) > 4096 →
      read_cwd_safe uid fs tid = none) ∧
    (∀ f, alLookup (cwdFileName tid) fs = some f → 0 < tid → f.uid = uid →
      f.mode / 8 % 8 = 0 → f.mode % 8 = 0 →
      chTrim f.content ≠ "" → chStartsWith (chTrim f.content) "/" = true →
      chLength (chTrim f.content) ≤ 4096 →
      read_cwd_safe uid fs tid = some (chTrim f.content)) := by
  refine ⟨?_, ?_, ?_, ?_, ?_, ?_⟩
  · intro h
    simp [read_cwd_safe, h]
  · intro h
    unfold read_cwd_safe
    rw [h]
    split <;> rfl
  · intro f hf howner
    unfold read_cwd_safe
    rw [hf]
    by_cases h1 : tid ≤ 0
    · simp [h1]
    · simp [h1, howner]
  · intro f hf hbits
    unfold read_cwd_safe
    rw [hf]
    by_cases h1 : tid ≤ 0
    · simp [h1]
    · have hmod : f.mode &&& 63 ≠ 0 := by
        rw [mode_land63]
        omega
      by_cases h2 : f.uid ≠ uid
      · simp [h1, h2]
      · simp [h1, h2, hmod]
  · intro f hf hcontent
    unfold read_cwd_safe
    rw [hf]
    by_cases h1 : tid ≤ 0
    · simp [h1]
    · by_cases h2 : f.uid ≠ uid
      · simp [h1, h2]
      · by_cases h3 : f.mode &&& 63 ≠ 0
        · simp [h1, h2, h3]
        · rcases hcontent with h4 | h4 | h4 <;> simp [h1, h2, h3, h4]
  · intro f hf htid howner hg ho hne hstarts hlen
    unfold read_cwd_safe
    rw [hf]
    have h1 : ¬ tid ≤ 0 := by omega
    have h2 : ¬ f.uid ≠ uid := by simp [howner]
    have h3 : ¬ f.mode &&& 63 ≠ 0 := by
      rw [mode_land63]
      omega
    have h5 : ¬ chLength (chTrim f.content) > 4096 := by omega
    simp [h1, h2, h3, hne, hstarts, h5]

/-- Witness for C2 (amended): a well-formed record is read back trimmed. -/
theorem C2_witness :
    alLookup (cwdFileName 1) [("tab_1_cwd", (⟨1000, 384, " /home/u \n"⟩ : FsFile))]
        = some ⟨1000, 384, " /home/u \n"⟩ ∧
      read_cwd_safe 1000 [("tab_1_cwd", ⟨1000, 384, " /home/u \n"⟩)] 1
        = some (chTrim " /home/u \n") :=
  ⟨by decide,
   (C2_read_validation 1000 [("tab_1_cwd", ⟨1000, 384, " /home/u \n"⟩)] 1).2.2.2.2.2
     ⟨1000, 384, " /home/u \n"⟩ (by decide) (by decide) (by decide) (by decide)
     (by decide) (by decide) (by decide) (by decide)⟩

/-- The `mkstemp` temporary name (suffix `.tmp`) never collides with a
per-tab record name (suffix `_cwd`). -/
theorem tempFileName_ne_cwdFileName (tid tid' : Int) (r : String) :
    tempFileName tid r ≠ cwdFileName tid' := by
  intro h
  have h1 : (tempFileName tid r).data.getLast? = some 'p' := by
    show (("tab_" ++ toString tid ++ "_" ++ r) ++ ".tmp").data.getLast? = some 'p'
    rw [String.data_append, List.getLast?_append]
    rw [show (".tmp" : String).data.getLast? = some 'p' from rfl]
    rfl
  have h2 : (cwdFileName tid').data.getLast? = some 'd' := by
    show (("tab_" ++ toString tid') ++ "_cwd").data.getLast? = some 'd'
    rw [String.data_append, List.getLast?_append]
    rw [show ("_cwd" : String).data.getLast? = some 'd' from rfl]
    rfl
  rw [h] at h1
  rw [h1] at h2
  exact absurd h2 (by decide)

/-- C3 (amended): the side-channel write rejects — raising a validation
error and leaving the filesystem unchanged — a non-positive `tab_id`, an
empty `cwd`, a non-absolute `cwd`, a `cwd` containing a parent-traversal
segment, and a `cwd` longer than 4096 characters (not bytes); on any
error, including failures after the temp file was created, no partial
record is visible under the target name (the temp file is removed and the
target binding is exactly what it was); on success the target holds the
complete owner-only record. -/
theorem C3_write_validation (uid : Nat) (env : WriteEnv) (fs : Fs) (tid : Int)
    (cwd : String) :
    (tid ≤ 0 →
      (write_cwd_atomic uid env fs tid cwd).1.isSome = true ∧
        (write_cwd_atomic uid env fs tid cwd).2 = fs) ∧
    (cwd = "" →
      (write_cwd_atomic uid env fs tid cwd).1.isSome = true ∧
        (write_cwd_atomic uid env fs tid cwd).2 = fs) ∧
    (chStartsWith cwd "/" = false →
      (write_cwd_atomic uid env fs tid cwd).1.isSome = true ∧
        (write_cwd_atomic uid env fs tid cwd).2 = fs) ∧
    (hasSubstr "/.." cwd = true ∨ chStartsWith cwd ".." = true →
      (write_cwd_atomic uid env fs tid cwd).1.isSome = true ∧
        (write_cwd_atomic uid env fs tid cwd).2 = fs) ∧
    (chLength cwd > 4096 →
      (write_cwd_atomic uid env fs tid cwd).1.isSome = true ∧
        (write_cwd_atomic uid env fs tid cwd).2 = fs) ∧
    ((write_cwd_atomic uid env fs tid cwd).1.isSome = true →
      alLookup (cwdFileName tid) (write_cwd_atomic uid env fs tid cwd).2
        = alLookup (cwdFileName tid) fs) ∧
    ((write_cwd_atomic uid env fs tid cwd).1 = none →
      alLookup (cwdFileName tid) (write_cwd_atomic uid env fs tid cwd).2
        = some ⟨uid, 384, cwd⟩) := by
  have hne := tempFileName_ne_cwdFileName tid tid env.tempRand
  refine ⟨?_, ?_, ?_, ?_, ?_, ?_, ?_⟩
  · intro h
    unfold write_cwd_atomic
    rw [if_pos h]
    exact ⟨rfl, rfl⟩
  · intro h
    unfold write_cwd_atomic
    by_cases h1 : tid ≤ 0
    · rw [if_pos h1]; exact ⟨rfl, rfl⟩
    · rw [if_neg h1, if_pos h]; exact ⟨rfl, rfl⟩
  · intro h
    unfold write_cwd_atomic
    by_cases h1 : tid ≤ 0
    · rw [if_pos h1]; exact ⟨rfl, rfl⟩
    · rw [if_neg h1]
      by_cases h2 : cwd = ""
      · rw [if_pos h2]; exact ⟨rfl, rfl⟩
      · rw [if_neg h2, if_pos (show ¬ chStartsWith cwd "/" = true by simp [h])]
        exact ⟨rfl, rfl⟩
  · intro h
    unfold write_cwd_atomic
    by_cases h1 : tid ≤ 0
    · rw [if_pos h1]; exact ⟨rfl, rfl⟩
    · rw [if_neg h1]
      by_cases h2 : cwd = ""
      · rw [if_pos h2]; exact ⟨rfl, rfl⟩
      · rw [if_neg h2]
        by_cases h3 : ¬ chStartsWith cwd "/" = true
        · rw [if_pos h3]; exact ⟨rfl, rfl⟩
        · rw [if_neg h3,
            if_pos (show (hasSubstr "/.." cwd || chStartsWith cwd "..") = true by
              rcases h with h | h <;> simp [h])]
          exact ⟨rfl, rfl⟩
  · intro h
    unfold write_cwd_atomic
    by_cases h1 : tid ≤ 0
    · rw [if_pos h1]; exact ⟨rfl, rfl⟩
    · rw [if_neg h1]
      by_cases h2 : cwd = ""
      · rw [if_pos h2]; exact ⟨rfl, rfl⟩
      · rw [if_neg h2]
        by_cases h3 : ¬ chStartsWith cwd "/" = true
        · rw [if_pos h3]; exact ⟨rfl, rfl⟩
        · rw [if_neg h3]
          by_cases h4 : (hasSubstr "/.." cwd || chStartsWith cwd "..") = true
          · rw [if_pos h4]; exact ⟨rfl, rfl⟩
          · rw [if_neg h4, if_pos h]; exact ⟨rfl, rfl⟩
  · unfold write_cwd_atomic
    by_cases h1 : tid ≤ 0
    · rw [if_pos h1]; intro _; rfl
    · rw [if_neg h1]
      by_cases h2 : cwd = ""
      · rw [if_pos h2]; intro _; rfl
      · rw [if_neg h2]
        by_cases h3 : ¬ chStartsWith cwd "/" = true
        · rw [if_pos h3]; intro _; rfl
        · rw [if_neg h3]
          by_cases h4 : (hasSubstr "/.." cwd || chStartsWith cwd "..") = true
          · rw [if_pos h4]; intro _; rfl
          · rw [if_neg h4]
            by_cases h5 : chLength cwd > 4096
            · rw [if_pos h5]; intro _; rfl
            · rw [if_neg h5]
              by_cases h6 : ¬ env.mkstempOk = true
              · rw [if_pos h6]; intro _; rfl
              · rw [if_neg h6]
                dsimp only
                by_cases hw : ¬ env.writeOk = true
                · rw [if_pos hw]
                  intro _
                  rw [alLookup_erase_ne _ hne, alLookup_insert_ne _ _ hne]
                · rw [if_neg hw]
                  by_cases hc : ¬ env.chmodOk = true
                  · rw [if_pos hc]
                    intro _
                    rw [alLookup_erase_ne _ hne, alLookup_insert_ne _ _ hne,
                      alLookup_insert_ne _ _ hne]
                  · rw [if_neg hc]
                    by_cases hr : ¬ env.renameOk = true
                    · rw [if_pos hr]
                      intro _
                      rw [alLookup_erase_ne _ hne, alLookup_insert_ne _ _ hne,
                        alLookup_insert_ne _ _ hne]
                    · rw [if_neg hr]
                      intro hcontra
                      simp at hcontra
  · unfold write_cwd_atomic
    by_cases h1 : tid ≤ 0
    · rw [if_pos h1]; intro hcontra; simp at hcontra
    · rw [if_neg h1]
      by_cases h2 : cwd = ""
      · rw [if_pos h2]; intro hcontra; simp at hcontra
      · rw [if_neg h2]
        by_cases h3 : ¬ chStartsWith cwd "/" = true
        · rw [if_pos h3]; intro hcontra; simp at hcontra
        · rw [if_neg h3]
          by_cases h4 : (hasSubstr "/.." cwd || chStartsWith cwd "..") = true
          · rw [if_pos h4]; intro hcontra; simp at hcontra
          · rw [if_neg h4]
            by_cases h5 : chLength cwd > 4096
            · rw [if_pos h5]; intro hcontra; simp at hcontra
            · rw [if_neg h5]
              by_cases h6 : ¬ env.mkstempOk = true
              · rw [if_pos h6]; intro hcontra; simp at hcontra
              · rw [if_neg h6]
                dsimp only
                by_cases hw : ¬ env.writeOk = true
                · rw [if_pos hw]; intro hcontra; simp at hcontra
                · rw [if_neg hw]
                  by_cases hc : ¬ env.chmodOk = true
                  · rw [if_pos hc]; intro hcontra; simp at hcontra
                  · rw [if_neg hc]
                    by_cases hr : ¬ env.renameOk = true
                    · rw [if_pos hr]; intro hcontra; simp at hcontra
                    · rw [if_neg hr]
                      intro _
                      exact alLookup_insert_self _ _ _

/-- A 4096-character absolute path whose UTF-8 encoding is 8191 bytes. -/
def longCwd : String := String.mk ('/' :: List.replicate 4095 'é')

/-- UTF-8 length of a run of two-byte characters. -/
theorem utf8Bytes_replicate_eacute (n : Nat) :
    (utf8Bytes (List.replicate n 'é')).length = 2 * n := by
  induction n with
  | zero => rfl
  | succ n ih =>
    rw [List.replicate_succ]
    rw [show utf8Bytes ('é' :: List.replicate n 'é')
      = [0xC0 + 233 / 64, 0x80 + 233 % 64] ++ utf8Bytes (List.replicate n 'é') from rfl]
    rw [List.length_append, ih,
      show ([0xC0 + 233 / 64, 0x80 + 233 % 64] : List Nat).length = 2 from rfl]
    omega

/-- The traversal pattern does not occur in a run of `é`. -/
theorem charsHaveInfix_dots_replicate (n : Nat) :
    charsHaveInfix ['/', '.', '.'] (List.replicate n 'é') = false := by
  induction n with
  | zero => rfl
  | succ n ih =>
    rw [List.replicate_succ, charsHaveInfix]
    rw [show List.isPrefixOf ['/', '.', '.'] ('é' :: List.replicate n 'é') = false by
      rw [List.isPrefixOf, show (('/' : Char) == 'é') = false from rfl, Bool.false_and]]
    rw [ih, Bool.or_false]

/-- `longCwd` contains no traversal segment. -/
theorem hasSubstr_longCwd : hasSubstr "/.." longCwd = false := by
  show charsHaveInfix ['/', '.', '.'] ('/' :: List.replicate 4095 'é') = false
  rw [charsHaveInfix]
  rw [show (4095 : Nat) = 4094 + 1 from rfl, List.replicate_succ]
  rw [show List.isPrefixOf ['/', '.', '.'] ('/' :: 'é' :: List.replicate 4094 'é') = false by
    rw [List.isPrefixOf, List.isPrefixOf, show (('.' : Char) == 'é') = false from rfl]
    rw [Bool.false_and, Bool.and_false]]
  rw [show ('é' :: List.replicate 4094 'é') = List.replicate (4094 + 1) 'é' from
    (List.replicate_succ ..).symm]
  rw [charsHaveInfix_dots_replicate, Bool.or_false]

/-- C3 counterexample: `longCwd` is 4096 characters but 8191 UTF-8 bytes —
longer than 4096 bytes — yet the side-channel write accepts it without
raising (the source counts characters, `len(cwd)`, not bytes). -/
theorem C3_counterexample :
    chLength longCwd = 4096 ∧ (utf8Bytes longCwd.data).length = 8191 ∧
      (write_cwd_atomic 1000 ⟨true, true, true, true, "x"⟩ [] 1 longCwd).1 = none := by
  have hlen : chLength longCwd = 4096 := by
    show ('/' :: List.replicate 4095 'é').length = 4096
    rw [List.length_cons, List.length_replicate]
  refine ⟨hlen, ?_, ?_⟩
  · show (utf8Bytes ('/' :: List.replicate 4095 'é')).length = 8191
    rw [show utf8Bytes ('/' :: List.replicate 4095 'é')
      = [47] ++ utf8Bytes (List.replicate 4095 'é') from rfl]
    rw [List.length_append, utf8Bytes_replicate_eacute,
      show ([47] : List Nat).length = 1 from rfl]
  · unfold write_cwd_atomic
    rw [if_neg (by norm_num : ¬ (1 : Int) ≤ 0)]
    rw [if_neg (show ¬ longCwd = "" by
      intro h
      have h2 := congrArg String.data h
      exact List.cons_ne_nil _ _ (show ('/' :: List.replicate 4095 'é') = [] from h2))]
    rw [if_neg (show ¬ ¬ chStartsWith longCwd "/" = true by
      simp [show chStartsWith longCwd "/" = true from rfl])]
    rw [if_neg (show ¬ (hasSubstr "/.." longCwd || chStartsWith longCwd "..") = true by
      simp [hasSubstr_longCwd, show chStartsWith longCwd ".." = false from rfl])]
    rw [if_neg (show ¬ chLength longCwd > 4096 by
      rw [hlen]
      omega)]
    rw [if_neg (by simp : ¬ ¬ (⟨true, true, true, true, "x"⟩ : WriteEnv).mkstempOk = true)]
    dsimp only
    rw [if_neg (by simp), if_neg (by simp), if_neg (by simp)]

/-- Witness for C3 (amended): a zero tab id is rejected with the store
unchanged, and a rename failure leaves the target binding unchanged. -/
theorem C3_witness :
    ((write_cwd_atomic 1000 ⟨true, true, true, true, "x"⟩ [] 0 "/h").1.isSome = true ∧
      (write_cwd_atomic 1000 ⟨true, true, true, true, "x"⟩ [] 0 "/h").2 = []) ∧
    alLookup (cwdFileName 1)
        (write_cwd_atomic 1000 ⟨true, true, true, false, "x"⟩ [] 1 "/h").2
      = alLookup (cwdFileName 1) [] :=
  ⟨(C3_write_validation 1000 ⟨true, true, true, true, "x"⟩ [] 0 "/h").1 (by norm_num),
   (C3_write_validation 1000 ⟨true, true, true, false, "x"⟩ [] 1 "/h").2.2.2.2.2.1
     (by decide)⟩

/-! ## Claims about the CWD Resolver -/

/-- A string is falsy exactly when it is empty. -/
theorem chIsEmpty_iff (c : String) : chIsEmpty c = true ↔ c = "" := by
  obtain ⟨d⟩ := c
  cases d with
  | nil => constructor <;> intro h <;> rfl
  | cons a l =>
    constructor
    · intro h
      exact absurd h (by simp [chIsEmpty])
    · intro h
      exact absurd (congrArg String.data h) (by simp)

/-- Whatever the side-channel read returns is absolute and non-empty. -/
theorem read_cwd_safe_some {uid : Nat} {fs : Fs} {tid : Int} {c : String}
    (h : read_cwd_safe uid fs tid = some c) :
    chStartsWith c "/" = true ∧ c ≠ "" := by
  unfold read_cwd_safe at h
  by_cases h1 : tid ≤ 0
  · rw [if_pos h1] at h
    exact absurd h (by simp)
  · rw [if_neg h1] at h
    cases heq : alLookup (cwdFileName tid) fs with
    | none =>
      rw [heq] at h
      exact absurd h (by simp)
    | some f =>
      rw [heq] at h
      dsimp only at h
      split_ifs at h with h2 h3 h4 h5 h6
      obtain rfl : chTrim f.content = c := Option.some.injEq .. ▸ h
      exact ⟨by simpa using h5, h4⟩

/-- Whatever the `lsof` scan returns is absolute and non-empty. -/
theorem lsofScan_some {ls : List String} {c : String}
    (h : lsofScan ls = some c) :
    chStartsWith c "/" = true ∧ chIsEmpty c = false := by
  induction ls with
  | nil => exact absurd h (by simp [lsofScan])
  | cons line rest ih =>
    unfold lsofScan at h
    split_ifs at h with h1
    · dsimp only at h
      split_ifs at h with h2
      · obtain rfl : chDrop line 1 = c := Option.some.injEq .. ▸ h
        simp only [Bool.and_eq_true] at h2
        exact ⟨h2.2, by simpa using h2.1⟩
      · exact ih h
    · exact ih h

/-- Whatever the process-introspection source returns is absolute and
non-empty. -/
theorem get_process_cwd_some {env : Env} {pid : Int} {c : String}
    (h : get_process_cwd env pid = some c) :
    chStartsWith c "/" = true ∧ chIsEmpty c = false := by
  unfold get_process_cwd at h
  cases hp : env.procSymlink pid with
  | some c' =>
    rw [hp] at h
    dsimp only at h
    split_ifs at h with h1
    · obtain rfl : c' = c := Option.some.injEq .. ▸ h
      simp only [Bool.and_eq_true] at h1
      exact ⟨h1.2, by simpa using h1.1⟩
    · cases hl : env.lsofOut pid with
      | none =>
        rw [hl] at h
        exact absurd h (by simp)
      | some lines =>
        rw [hl] at h
        exact lsofScan_some h
  | none =>
    rw [hp] at h
    dsimp only at h
    cases hl : env.lsofOut pid with
    | none =>
      rw [hl] at h
      exact absurd h (by simp)
    | some lines =>
      rw [hl] at h
      exact lsofScan_some h

/-- Whatever the window-process scan returns is absolute and non-empty. -/
theorem windowsProcScan_some {env : Env} {ws : List KittyWindow} {c : String}
    (h : windowsProcScan env ws = some c) :
    chStartsWith c "/" = true ∧ chIsEmpty c = false := by
  induction ws with
  | nil => exact absurd h (by simp [windowsProcScan])
  | cons w rest ih =>
    unfold windowsProcScan at h
    cases hfg : w.foreground_processes with
    | nil =>
      rw [hfg] at h
      exact ih h
    | cons p ps =>
      rw [hfg] at h
      dsimp only at h
      cases hp : p.pid with
      | none =>
        rw [hp] at h
        exact ih h
      | some pid =>
        rw [hp] at h
        dsimp only at h
        split_ifs at h with h1
        · exact ih h
        · cases hg : get_process_cwd env pid with
          | none =>
            rw [hg] at h
            exact ih h
          | some cwd =>
            rw [hg] at h
            dsimp only at h
            split_ifs at h with h2
            · exact ih h
            · obtain rfl : cwd = c := Option.some.injEq .. ▸ h
              exact ⟨(get_process_cwd_some hg).1, (get_process_cwd_some hg).2⟩

/-- C7 counterexample: a tab with a valid id, no side-channel record and
no resolvable foreground process, whose first window reports the relative
path `rel`, resolves to `rel` — neither an absolute path nor empty. -/
theorem C7_counterexample :
    get_tab_cwd ⟨1000, [], fun _ => none, fun _ => none⟩
        ⟨some 1, [⟨"rel", []⟩]⟩ = "rel" ∧
      chStartsWith "rel" "/" = false ∧ ("rel" : String) ≠ "" := by
  refine ⟨?_, by decide, by decide⟩
  decide

/-- C7 (amended): the resolver follows the precedence side-channel record,
then foreground-process introspection, then the tab's reported CWD, first
success winning; an invalid or missing tab id returns the empty string
with no resolution attempted, and when no source resolves the result is
the empty string (the reported-CWD fallback value).  Results of the first
two sources are guaranteed absolute and non-empty; the reported-CWD
fallback is passed through unvalidated, so it may be relative. -/
theorem C7_resolve_precedence (env : Env) (tab : Tab) :
    (tab.id = none → get_tab_cwd env tab = "") ∧
    (∀ tid, tab.id = some tid → tid ≤ 0 → get_tab_cwd env tab = "") ∧
    (∀ tid c, tab.id = some tid → 0 < tid →
      read_cwd_safe env.uid env.fs tid = some c →
      get_tab_cwd env tab = c ∧ chStartsWith c "/" = true ∧ c ≠ "") ∧
    (∀ tid c, tab.id = some tid → 0 < tid →
      read_cwd_safe env.uid env.fs tid = none →
      windowsProcScan env tab.windows = some c →
      get_tab_cwd env tab = c ∧ chStartsWith c "/" = true ∧ c ≠ "") ∧
    (∀ tid, tab.id = some tid → 0 < tid →
      read_cwd_safe env.uid env.fs tid = none →
      windowsProcScan env tab.windows = none →
      get_tab_cwd env tab = windowsCwdScan tab.windows) := by
  refine ⟨?_, ?_, ?_, ?_, ?_⟩
  · intro h
    unfold get_tab_cwd
    rw [h]
  · intro tid h htid
    unfold get_tab_cwd
    rw [h]
    dsimp only
    rw [if_pos htid]
  · intro tid c h htid hread
    obtain ⟨habs, hne⟩ := read_cwd_safe_some hread
    unfold get_tab_cwd
    rw [h]
    dsimp only
    rw [if_neg (by omega), hread]
    dsimp only
    rw [if_pos (show ¬ chIsEmpty c = true by
      intro hc
      exact hne ((chIsEmpty_iff c).1 hc))]
    exact ⟨rfl, habs, hne⟩
  · intro tid c h htid hread hproc
    obtain ⟨habs, hemp⟩ := windowsProcScan_some hproc
    unfold get_tab_cwd
    rw [h]
    dsimp only
    rw [if_neg (by omega), hread]
    dsimp only
    rw [hproc]
    refine ⟨rfl, habs, ?_⟩
    intro hc
    rw [(chIsEmpty_iff c).2 hc] at hemp
    exact absurd hemp (by decide)
  · intro tid h htid hread hproc
    unfold get_tab_cwd
    rw [h]
    dsimp only
    rw [if_neg (by omega), hread]
    dsimp only
    rw [hproc]

/-- Witness for C7 (amended): a side-channel hit wins and is absolute. -/
theorem C7_witness :
    read_cwd_safe 1000 [("tab_1_cwd", ⟨1000, 384, "/home/u"⟩)] 1 = some "/home/u" ∧
      get_tab_cwd ⟨1000, [("tab_1_cwd", ⟨1000, 384, "/home/u"⟩)], fun _ => none,
          fun _ => none⟩ ⟨some 1, [⟨"rel", []⟩]⟩ = "/home/u" ∧
      chStartsWith "/home/u" "/" = true ∧ ("/home/u" : String) ≠ "" :=
  ⟨by decide,
   ((C7_resolve_precedence
       ⟨1000, [("tab_1_cwd", ⟨1000, 384, "/home/u"⟩)], fun _ => none, fun _ => none⟩
       ⟨some 1, [⟨"rel", []⟩]⟩).2.2.1 1 "/home/u" rfl (by norm_num) (by decide))⟩

/-! ## Claims about the Process Classifier -/

/-- C8: on a known interpreter, the classifier scans the arguments
skipping flag-prefixed arguments and bare path separators, takes the first
remaining argument as the candidate script, strips its directory and
matching extension, keeps scanning past names in the generic-name
deny-list, and falls back to the interpreter name when no acceptable
candidate remains; `["python", "main.py"]` classifies as `python` and
`["python", "analyzer.py"]` as `analyzer`. -/
theorem C8_interpreter_scan :
    (_parse_process_command defaultConfig ⟨none, ["python", "main.py"]⟩
        = some "python") ∧
    (_parse_process_command defaultConfig ⟨none, ["python", "analyzer.py"]⟩
        = some "analyzer") ∧
    (∀ (exts : List String) (args : List String) (a : String),
      (chStartsWith a "-" || chStartsWith a "--") = true →
      scanScript exts (a :: args) = scanScript exts args) ∧
    (∀ (exts : List String) (args : List String) (a : String),
      a = "/" ∨ a = "." ∨ a = ".." →
      scanScript exts (a :: args) = scanScript exts args) ∧
    (∀ (exts : List String) (args : List String) (a : String),
      (chStartsWith a "-" || chStartsWith a "--") = false →
      ¬ (a = "/" ∨ a = "." ∨ a = "..") →
      chToLower (stripExt exts (pyBasename a)) ∈ genericNames →
      scanScript exts (a :: args) = scanScript exts args) ∧
    (∀ (exts : List String) (args : List String) (a : String),
      (chStartsWith a "-" || chStartsWith a "--") = false →
      ¬ (a = "/" ∨ a = "." ∨ a = "..") →
      chToLower (stripExt exts (pyBasename a)) ∉ genericNames →
      stripExt exts (pyBasename a) ≠ "" →
      scanScript exts (a :: args) = some (stripExt exts (pyBasename a))) ∧
    (∀ args : List String, scanScript ["py"] args = none →
      _parse_process_command defaultConfig ⟨none, "python" :: args⟩ = some "python") := by
  refine ⟨by decide, by decide, ?_, ?_, ?_, ?_, ?_⟩
  · intro exts args a h
    conv_lhs => rw [scanScript]
    rw [if_pos h]
  · intro exts args a h
    conv_lhs => rw [scanScript]
    rcases h with h | h | h <;> subst h
    · rw [if_neg (by decide), if_pos (by norm_num)]
    · rw [if_neg (by decide), if_pos (by norm_num)]
    · rw [if_neg (by decide), if_pos (by norm_num)]
  · intro exts args a h1 h2 h3
    conv_lhs => rw [scanScript]
    rw [if_neg (by simp [h1]), if_neg h2]
    dsimp only
    rw [if_pos h3]
  · intro exts args a h1 h2 h3 h4
    conv_lhs => rw [scanScript]
    rw [if_neg (by simp [h1]), if_neg h2]
    dsimp only
    rw [if_neg h3,
      if_pos (show ¬ chIsEmpty (stripExt exts (pyBasename a)) = true by
        intro hc
        exact h4 ((chIsEmpty_iff _).1 hc))]
  · intro args h
    unfold _parse_process_command
    dsimp only
    rw [show pyBasename "python" = "python" from rfl]
    rw [if_neg (show ¬ chStartsWith "python" "-" = true by decide)]
    rw [if_neg (by decide), if_neg (by decide), if_neg (by decide), if_neg (by decide),
      if_neg (by decide), if_neg (by decide)]
    rw [show interpExts (chToLower "python") = some ["py"] from by decide]
    dsimp only
    rw [h]
    decide

/-- Witness for C8: a flags-only argument list falls back to `python`. -/
theorem C8_witness :
    scanScript ["py"] ["-v"] = none ∧
      _parse_process_command defaultConfig ⟨none, ["python", "-v"]⟩ = some "python" :=
  ⟨by decide, C8_interpreter_scan.2.2.2.2.2.2 ["-v"] (by decide)⟩

/-- Witness for C10: a root holding the lock file and one tab record. -/
theorem C10_witness :
    matchesTabCwd "daemon.pid" = false ∧
      alLookup "daemon.pid"
        (cleanup_temp_files true (fun _ => false)
          [("daemon.pid", ⟨1000, 384, "123"⟩), ("tab_3_cwd", ⟨1000, 384, "/x"⟩)])
        = alLookup "daemon.pid"
            [("daemon.pid", ⟨1000, 384, "123"⟩), ("tab_3_cwd", ⟨1000, 384, "/x"⟩)] :=
  ⟨by decide,
   C10_cleanup_frame.1 true (fun _ => false)
     [("daemon.pid", ⟨1000, 384, "123"⟩), ("tab_3_cwd", ⟨1000, 384, "/x"⟩)]
     "daemon.pid" (by decide)⟩

end SmartTabs
